import Mathlib

/-!
Verification development for the `runfiles-stub` repository: a shallow
embedding of the finalizer (`finalize-stub/src/main.rs`) and of the stub
runtime (`runfiles-stub/src/linux.rs`, with the Windows-specific variants
from `runfiles-stub/src/windows.rs` and the macOS export-flag parse from
`runfiles-stub/src/macos.rs`), together with theorems about the embedded
code.  Byte strings are modelled as `List Nat`; fixed-size in-place
buffers are modelled by explicit truncation (`List.take`) at the points
where the source code applies `.min(...)` bounds; syscall-backed
operations (file reads, `access`, environment block) are parameters of a
`Sys` record.
-/

/-- Bytes of an ASCII string literal. -/
def strBytes (s : String) : List Nat := s.toList.map Char.toNat

/-- Embeds `find_byte` from linux.rs/macos.rs/windows.rs: index of the first
occurrence of a byte, scanning left to right. -/
def findByte : List Nat → Nat → Option Nat
  | [], _ => none
  | x :: rest, b => if x = b then some 0 else (findByte rest b).map (· + 1)

/-- Embeds `str_starts_with`: true when `needle` is an initial segment of
`haystack` (the source first compares lengths, then the bytes). -/
def strStartsWith (haystack needle : List Nat) : Bool :=
  if haystack.length < needle.length then false
  else haystack.take needle.length == needle

/-- Embeds `str_len` / `strlen` on a fixed buffer: number of bytes before
the first NUL (or the whole buffer when it contains no NUL). -/
def strLen (s : List Nat) : Nat := (s.takeWhile (· ≠ 0)).length

/-- The reserved sentinel bytes `"@@RUNFILES_"`. -/
def sentinelBytes : List Nat := strBytes "@@RUNFILES_"

/-- Embeds `is_template_placeholder`: a buffer of at least 17 bytes that
still begins with the `"@@RUNFILES_"` sentinel bytes. -/
def isTemplatePlaceholder (placeholder : List Nat) : Bool :=
  if placeholder.length < 17 then false
  else strStartsWith placeholder sentinelBytes

/-! ## Finalizer (`finalize-stub/src/main.rs`) -/

/-- Embeds `find_pattern`: position of the first window of `data` equal to
`pattern` (the source uses `windows(len).position`). -/
def find_pattern : List Nat → List Nat → Option Nat
  | data, pattern =>
    if pattern.length ≤ data.length then
      if data.take pattern.length = pattern then some 0
      else
        match data with
        | [] => none
        | _ :: rest => (find_pattern rest pattern).map (· + 1)
    else none

/-- Helper loop of `find_nth_pattern`: scan from `pos`, skipping a full
pattern length after every hit, until the `n`-th non-overlapping match. -/
def findNthAux (data pattern : List Nat) : Nat → Nat → Option Nat
  | pos, 0 =>
    if pos < data.length then
      match find_pattern (data.drop pos) pattern with
      | none => none
      | some offset => some (pos + offset)
    else none
  | pos, n + 1 =>
    if pos < data.length then
      match find_pattern (data.drop pos) pattern with
      | none => none
      | some offset => findNthAux data pattern (pos + offset + pattern.length) n
    else none

/-- Embeds `find_nth_pattern`: the `n`-th non-overlapping match of
`pattern` in `data`, counting from 0. -/
def find_nth_pattern (data pattern : List Nat) (n : Nat) : Option Nat :=
  findNthAux data pattern 0 n

/-- Zero-fill loop of `replace_at`: set `n` bytes starting at `offset`
to 0 (a `List.set` out of range is a no-op, as in-bounds offsets are
guaranteed by the callers). -/
def zeroRegion (data : List Nat) (offset : Nat) : Nat → List Nat
  | 0 => data
  | n + 1 => (zeroRegion data offset n).set (offset + n) 0

/-- Copy loop of `replace_at`: write the bytes of `v` starting at
`offset`. -/
def copyRegion : List Nat → Nat → List Nat → List Nat
  | data, _, [] => data
  | data, offset, b :: rest => copyRegion (data.set offset b) (offset + 1) rest

/-- The successful branch of `replace_at`: zero the whole fixed-size slot,
then copy the new value over its head. -/
def replaceOk (data : List Nat) (offset : Nat) (v : List Nat) (fixedSize : Nat) : List Nat :=
  copyRegion (zeroRegion data offset fixedSize) offset v

/-- Embeds `replace_at`: fails when the value exceeds the fixed slot size,
otherwise zero-fills the slot and copies the value. -/
def replace_at (data : List Nat) (offset : Nat) (newValue : List Nat) (fixedSize : Nat) :
    Except String (List Nat) :=
  if fixedSize < newValue.length then Except.error "Value too long"
  else Except.ok (replaceOk data offset newValue fixedSize)

/-- Decimal digit loop with explicit fuel (each step divides by 10, so a
fuel equal to the number itself is never exhausted). -/
def natDecimalGo : Nat → Nat → List Nat
  | 0, n => [48 + n % 10]
  | fuel + 1, n => if n < 10 then [48 + n] else natDecimalGo fuel (n / 10) ++ [48 + n % 10]

/-- Decimal ASCII bytes of a number, as produced by Rust `to_string`. -/
def natDecimal (n : Nat) : List Nat := natDecimalGo n n

/-- The byte written for the `EXPORT_RUNFILES_ENV` placeholder: `"1"` or
`"0"`. -/
def exportBytes (exportRunfilesEnv : Bool) : List Nat :=
  if exportRunfilesEnv then [49] else [48]

/-- The `@@RUNFILES_ARGC@@` metadata sentinel. -/
def argcPattern : List Nat := strBytes "@@RUNFILES_ARGC@@"

/-- The `@@RUNFILES_TRANSFORM_FLAGS@@` metadata sentinel. -/
def flagsPattern : List Nat := strBytes "@@RUNFILES_TRANSFORM_FLAGS@@"

/-- The `@@RUNFILES_EXPORT_ENV@@` metadata sentinel. -/
def exportPattern : List Nat := strBytes "@@RUNFILES_EXPORT_ENV@@"

/-- The argument placeholder pattern: a run of 256 `'@'` bytes. -/
def argPlaceholderPattern : List Nat := List.replicate 256 64

/-- Collection loop of the pre-scan: the `i`-th to `(i+n-1)`-th
argument-placeholder offsets, failing when any is absent. -/
def argPositionsGo (data : List Nat) : Nat → Nat → Option (List Nat)
  | _, 0 => some []
  | i, n + 1 =>
    match find_nth_pattern data argPlaceholderPattern i with
    | none => none
    | some p =>
      match argPositionsGo data (i + 1) n with
      | none => none
      | some rest => some (p :: rest)

/-- Pre-scan of `finalize_stub`: the first `n` argument-placeholder
offsets, found by `find_nth_pattern` before any argument is patched. -/
def argPositions (data : List Nat) (n : Nat) : Option (List Nat) :=
  argPositionsGo data 0 n

/-- Argument-patching loop of `finalize_stub`: patch each value at its
pre-scanned offset into a 256-byte slot. -/
def patchArgs : List Nat → List (Nat × List Nat) → Except String (List Nat)
  | data, [] => Except.ok data
  | data, (pos, v) :: rest =>
    match replace_at data pos v 256 with
    | Except.error e => Except.error e
    | Except.ok d => patchArgs d rest

/-- Sequential application of a list of `(offset, value, slotSize)`
patches by `replaceOk`; the normal form of a successful finalization. -/
def applyPatches : List Nat → List (Nat × List Nat × Nat) → List Nat
  | data, [] => data
  | data, (o, v, s) :: rest => applyPatches (replaceOk data o v s) rest

/-- The patch list performed by a successful `finalize_stub` run, given
the discovered offsets: the three 32-byte metadata slots followed by one
256-byte slot per argument. -/
def finPatches (argv : List (List Nat)) (transformFlags : Nat) (exportEnv : Bool)
    (argcPos flagsPos exportPos : Nat) (poss : List Nat) : List (Nat × List Nat × Nat) :=
  (argcPos, natDecimal argv.length, 32) ::
  (flagsPos, natDecimal transformFlags, 32) ::
  (exportPos, exportBytes exportEnv, 32) ::
  (poss.zip argv).map (fun pv => (pv.1, pv.2, 256))

/-- Embeds `finalize_stub` (the in-memory patching part; file I/O,
canonicalization of paths and the executable bit are outside the byte
transformation): validate `argv`, patch ARGC, TRANSFORM_FLAGS and
EXPORT_RUNFILES_ENV at their first-match sentinel offsets, pre-scan all
argument-placeholder offsets, then patch each argument. -/
def finalize_stub (data : List Nat) (argv : List (List Nat)) (transformFlags : Nat)
    (exportRunfilesEnv : Bool) : Except String (List Nat) :=
  if argv.length = 0 then Except.error "At least one argument is required"
  else if 10 < argv.length then Except.error "Maximum 10 arguments supported"
  else
    match find_pattern data argcPattern with
    | none => Except.error "ARGC placeholder not found in template"
    | some argcPos =>
      match replace_at data argcPos (natDecimal argv.length) 32 with
      | Except.error e => Except.error e
      | Except.ok d1 =>
        match find_pattern d1 flagsPattern with
        | none => Except.error "TRANSFORM_FLAGS placeholder not found in template"
        | some flagsPos =>
          match replace_at d1 flagsPos (natDecimal transformFlags) 32 with
          | Except.error e => Except.error e
          | Except.ok d2 =>
            match find_pattern d2 exportPattern with
            | none => Except.error "EXPORT_RUNFILES_ENV placeholder not found in template"
            | some exportPos =>
              match replace_at d2 exportPos (exportBytes exportRunfilesEnv) 32 with
              | Except.error e => Except.error e
              | Except.ok d3 =>
                match argPositions d3 argv.length with
                | none => Except.error "ARG placeholder not found in template"
                | some poss => patchArgs d3 (poss.zip argv)

/-! ## Stub runtime: environment and manifest (linux.rs, with the
windows.rs variants where they differ) -/

/-- The syscall surface consumed by the Linux stub: contents of
`/proc/self/environ` (`none` when the open or read fails), a file-read
oracle for `open`+`read` (keyed by the NUL-stripped path, returning the
full file contents), and the `access(F_OK)` oracle. -/
structure Sys where
  environ : Option (List Nat)
  files : List Nat → Option (List Nat)
  dirExists : List Nat → Bool

/-- Splits a NUL-separated buffer scan step: the current entry is the
bytes before the first NUL. -/
def envEntryAt (data : List Nat) : List Nat := data.takeWhile (· ≠ 0)

/-- Lookup loop of `get_env_var` (linux.rs): walk NUL-separated
`key=value` entries, return the value of the first entry whose key
matches, truncated to the caller's buffer size. -/
def getEnvVarGo (name : List Nat) (bufLen : Nat) : Nat → List Nat → Option (List Nat)
  | _, [] => none
  | 0, _ :: _ => none
  | fuel + 1, d :: rest =>
    let entry := envEntryAt (d :: rest)
    match (match findByte entry 61 with
           | some eqPos =>
             if entry.take eqPos = name then some ((entry.drop (eqPos + 1)).take bufLen)
             else none
           | none => none) with
    | some v => some v
    | none => getEnvVarGo name bufLen fuel ((d :: rest).drop (entry.length + 1))

/-- Embeds `get_env_var` (linux.rs): read `/proc/self/environ` into a
6 MiB buffer and scan for the first matching key; the value is truncated
to the destination buffer length. -/
def get_env_var (environ : Option (List Nat)) (name : List Nat) (bufLen : Nat) :
    Option (List Nat) :=
  match environ with
  | none => none
  | some env =>
    let data := env.take 6291456
    if data.length = 0 then none
    else getEnvVarGo name bufLen data.length data

/-- Line-splitting loop of `load_manifest`, with explicit fuel. -/
def splitLinesGo : Nat → List Nat → List (List Nat)
  | _, [] => []
  | 0, _ :: _ => []
  | fuel + 1, d :: rest =>
    let line := (d :: rest).takeWhile (· ≠ 10)
    line :: splitLinesGo fuel ((d :: rest).drop (line.length + 1))

/-- Line splitter shared by `load_manifest` on all platforms: lines are
the maximal newline-free segments, scanning left to right (the fuel
equals the input length and is never exhausted, since every step consumes
at least one byte). -/
def splitLines (data : List Nat) : List (List Nat) := splitLinesGo data.length data

/-- Embeds `Manifest::add_entry`: append an entry with key and value
truncated to `maxPath` bytes, silently dropping it once `maxEntries`
entries are stored. -/
def addEntry (maxEntries maxPath : Nat) (m : List (List Nat × List Nat)) (k v : List Nat) :
    List (List Nat × List Nat) :=
  if maxEntries ≤ m.length then m else m ++ [(k.take maxPath, v.take maxPath)]

/-- Embeds the parse loop of `load_manifest` (linux.rs / macos.rs): split
at `'\n'`, use the first space of each line as the key/value delimiter,
ignore lines without a space; at most 1024 entries of at most 256 bytes
each.  No `'\r'` handling. -/
def linuxParseManifest (data : List Nat) : List (List Nat × List Nat) :=
  (splitLines data).foldl (fun m line =>
    match findByte line 32 with
    | some spacePos => addEntry 1024 256 m (line.take spacePos) (line.drop (spacePos + 1))
    | none => m) []

/-- Embeds the parse loop of `load_manifest` (windows.rs): as on Linux,
but a trailing `'\r'` of the value is stripped, and the caps are 256
entries of at most 512 bytes. -/
def windowsParseManifest (data : List Nat) : List (List Nat × List Nat) :=
  (splitLines data).foldl (fun m line =>
    match findByte line 32 with
    | some spacePos =>
      let v := line.drop (spacePos + 1)
      let v2 := if v ≠ [] ∧ v.getLast? = some 13 then v.dropLast else v
      addEntry 256 512 m (line.take spacePos) v2
    | none => m) []

/-- Embeds `Manifest::lookup`: linear scan returning the value of the
first entry whose stored key equals the query. -/
def manifest_lookup : List (List Nat × List Nat) → List Nat → Option (List Nat)
  | [], _ => none
  | e :: rest, k => if e.1 = k then some e.2 else manifest_lookup rest k

/-- Embeds `load_manifest` (linux.rs): open the NUL-terminated path, do a
single read of at most 64 KiB, fail (`none`) when the open fails or
nothing was read, else parse. -/
def load_manifest (sys : Sys) (pathBuf : List Nat) : Option (List (List Nat × List Nat)) :=
  match sys.files (pathBuf.takeWhile (· ≠ 0)) with
  | none => none
  | some content =>
    let data := content.take 65536
    if data.length = 0 then none else some (linuxParseManifest data)

/-- Embeds the Runfiles mode tag: manifest table or base directory. -/
inductive RunfilesMode where
  | manifestBased (m : List (List Nat × List Nat))
  | directoryBased (dir : List Nat)
deriving DecidableEq

/-- Embeds the `Runfiles` struct: the mode plus the recorded paths for
later environment export. -/
structure Runfiles where
  mode : RunfilesMode
  manifestPath : Option (List Nat)
  dirPath : Option (List Nat)
deriving DecidableEq

/-- The sibling fall-back of `Runfiles::create` (linux.rs): the sibling
manifest `<exe>.runfiles_manifest` when loadable (also recording the
implied `<exe>.runfiles` directory), else the sibling directory
`<exe>.runfiles` when `access(F_OK)` succeeds. -/
def linuxSiblingFallback (sys : Sys) (executablePath : Option (List Nat)) : Option Runfiles :=
  match executablePath with
  | none => none
  | some exePath =>
    let exeLen := strLen exePath
    if 0 < exeLen then
      let tryManifest : Option Runfiles :=
        if exeLen + 19 < 256 then
          let manifestFile := exePath.take exeLen ++ strBytes ".runfiles_manifest"
          match load_manifest sys (manifestFile ++ [0]) with
          | some m =>
            let dirPath :=
              if exeLen + 9 < 256 then some (exePath.take exeLen ++ strBytes ".runfiles")
              else none
            some ⟨RunfilesMode.manifestBased m, some manifestFile, dirPath⟩
          | none => none
        else none
      match tryManifest with
      | some rf => some rf
      | none =>
        if exeLen + 10 < 256 then
          let dir := exePath.take exeLen ++ strBytes ".runfiles"
          if sys.dirExists dir then some ⟨RunfilesMode.directoryBased dir, none, some dir⟩
          else none
        else none
    else none

/-- The `RUNFILES_DIR` step of `Runfiles::create` (linux.rs): a set and
non-empty value is used as base directory with no existence check,
otherwise the sibling fall-back runs. -/
def linuxEnvDirStep (sys : Sys) (executablePath : Option (List Nat)) : Option Runfiles :=
  match get_env_var sys.environ (strBytes "RUNFILES_DIR") 256 with
  | some v =>
    if 0 < v.length then some ⟨RunfilesMode.directoryBased v, none, some v⟩
    else linuxSiblingFallback sys executablePath
  | none => linuxSiblingFallback sys executablePath

/-- Embeds `Runfiles::create` (linux.rs): `RUNFILES_MANIFEST_FILE` as
manifest, then `RUNFILES_DIR` as directory (no existence check), then the
sibling manifest `<exe>.runfiles_manifest`, then the sibling directory
`<exe>.runfiles` probed with `access(F_OK)`. -/
def Runfiles.create (sys : Sys) (executablePath : Option (List Nat)) : Option Runfiles :=
  match get_env_var sys.environ (strBytes "RUNFILES_MANIFEST_FILE") 256 with
  | some v =>
    if 0 < v.length then
      match load_manifest sys (v ++ [0]) with
      | some m => some ⟨RunfilesMode.manifestBased m, some v, none⟩
      | none => linuxEnvDirStep sys executablePath
    else linuxEnvDirStep sys executablePath
  | none => linuxEnvDirStep sys executablePath

/-- Embeds `Runfiles::rlocation` (linux.rs / macos.rs, identical code):
absolute paths (leading `'/'`) are refused; manifest mode looks the path
up in the table; directory mode joins the base directory, a `'/'` when
the copied directory does not already end with one, and the path, inside
a fixed 256-byte result buffer. -/
def Runfiles.rlocation (rf : Runfiles) (path : List Nat) : Option (List Nat) :=
  if 0 < path.length ∧ path.headD 0 = 47 then none
  else
    match rf.mode with
    | RunfilesMode.manifestBased m =>
      match manifest_lookup m path with
      | some resolved => some (resolved.take 256)
      | none => none
    | RunfilesMode.directoryBased dir =>
      let copyLen := min dir.length 256
      let base := dir.take copyLen
      if copyLen < 256 ∧ 0 < copyLen ∧ base.getLastD 0 ≠ 47 then
        some (base ++ [47] ++ path.take (256 - (copyLen + 1)))
      else
        some (base ++ path.take (256 - copyLen))

/-! ## Stub runtime: environment block construction (linux.rs) -/

/-- Entry-splitting loop of `get_environ` (linux.rs): collect the
NUL-separated entries, skipping empty ones, failing once 1024 entries
are stored while input remains. -/
def environEntriesGo : Nat → List Nat → Nat → Except String (List (List Nat))
  | _, [], _ => Except.ok []
  | 0, _ :: _, _ => Except.ok []
  | fuel + 1, d :: rest, count =>
    if 1024 ≤ count then
      Except.error "ERROR: Number of environment variables exceeds limit of 1024"
    else if d = 0 then environEntriesGo fuel rest count
    else
      let entry := (d :: rest).takeWhile (· ≠ 0)
      match environEntriesGo fuel ((d :: rest).drop (entry.length + 1)) (count + 1) with
      | Except.error e => Except.error e
      | Except.ok tail => Except.ok (entry :: tail)

/-- Embeds `get_environ` (linux.rs): read `/proc/self/environ` (failure
yields the empty environment), fail hard when the 6 MiB buffer was
filled, then split into at most 1024 entries. -/
def get_environ (environ : Option (List Nat)) : Except String (List (List Nat)) :=
  match environ with
  | none => Except.ok []
  | some env =>
    let data := env.take 6291456
    if data.length = 0 then Except.ok []
    else if 6291456 ≤ data.length then
      Except.error "ERROR: Environment data exceeds buffer limit of 6291456 bytes"
    else environEntriesGo data.length data 0

/-- True when an entry replaces one of the three injected runfiles
variables (the skip test of the copy loop in `build_runfiles_environ`). -/
def isRunfilesEntry (e : List Nat) : Bool :=
  strStartsWith e (strBytes "RUNFILES_MANIFEST_FILE=") ||
  strStartsWith e (strBytes "RUNFILES_DIR=") ||
  strStartsWith e (strBytes "JAVA_RUNFILES=")

/-- Embeds the `add_env_var` closure of `build_runfiles_environ`
(linux.rs): append `name=value` unless the 6 MiB data buffer or the
1024-entry pointer table would overflow, in which case it fails.  The
state is the entry list plus the data-buffer write position. -/
def addEnvVar (st : List (List Nat) × Nat) (name value : List Nat) :
    Option (List (List Nat) × Nat) :=
  if 6291456 < st.2 + name.length + 1 + value.length + 1 then none
  else if 1024 ≤ st.1.length then none
  else some (st.1 ++ [name ++ [61] ++ value], st.2 + name.length + 1 + value.length + 1)

/-- The injected-variable phase of `build_runfiles_environ` (linux.rs):
`RUNFILES_MANIFEST_FILE` when a manifest path is recorded, then
`RUNFILES_DIR` and `JAVA_RUNFILES` when a directory path is recorded;
each failed insertion is a distinct fatal error. -/
def addRunfilesVars (rf : Runfiles) : Except String (List (List Nat) × Nat) :=
  match (match rf.manifestPath with
         | some p =>
           match addEnvVar ([], 0) (strBytes "RUNFILES_MANIFEST_FILE") p with
           | some st => Except.ok st
           | none => Except.error "ERROR: Failed to add RUNFILES_MANIFEST_FILE to environment"
         | none => Except.ok (([], 0) : List (List Nat) × Nat)) with
  | Except.error e => Except.error e
  | Except.ok st1 =>
    match rf.dirPath with
    | some p =>
      match addEnvVar st1 (strBytes "RUNFILES_DIR") p with
      | none => Except.error "ERROR: Failed to add RUNFILES_DIR to environment"
      | some st2 =>
        match addEnvVar st2 (strBytes "JAVA_RUNFILES") p with
        | none => Except.error "ERROR: Failed to add JAVA_RUNFILES to environment"
        | some st3 => Except.ok st3
    | none => Except.ok st1

/-- The copy loop of `build_runfiles_environ` (linux.rs): copy every
inherited entry that is not one of the three replaced variables, setting
the dropped flag when an entry does not fit. -/
def linuxCopyEnv : List (List Nat) → List (List Nat) → Nat → Bool →
    List (List Nat) × Nat × Bool
  | [], es, pos, dropped => (es, pos, dropped)
  | e :: rest, es, pos, dropped =>
    if isRunfilesEntry e then linuxCopyEnv rest es pos dropped
    else if pos + e.length + 1 ≤ 6291456 ∧ es.length < 1024 then
      linuxCopyEnv rest (es ++ [e]) (pos + e.length + 1) dropped
    else linuxCopyEnv rest es pos true

/-- Embeds `build_runfiles_environ` (linux.rs): with no runfiles the base
environment is returned untouched; otherwise the injected variables come
first (fail hard when they do not fit), then every inherited
non-runfiles entry is copied, and the whole call fails hard when any
inherited entry was dropped. -/
def build_runfiles_environ (environ : Option (List Nat)) (runfiles : Option Runfiles) :
    Except String (List (List Nat)) :=
  match get_environ environ with
  | Except.error e => Except.error e
  | Except.ok base =>
    match runfiles with
    | none => Except.ok base
    | some rf =>
      match addRunfilesVars rf with
      | Except.error e => Except.error e
      | Except.ok st =>
        match linuxCopyEnv base st.1 st.2 false with
        | (es, _, dropped) =>
          if dropped then Except.error "ERROR: Failed to copy all environment variables"
          else Except.ok es

/-! ## Stub runtime: entry point (linux.rs `_start_rust`) -/

/-- The placeholder state of a stub binary: the three 32-byte metadata
slots and the ten 256-byte argument slots. -/
structure Placeholders where
  argcPh : List Nat
  flagsPh : List Nat
  exportPh : List Nat
  args : List (List Nat)
deriving DecidableEq

/-- Outcome of a stub run: diagnostic exit, or handoff to `execve` with a
program path, an argv slot list and an environment entry list. -/
inductive StubOutcome where
  | exit (code : Nat) (msg : String)
  | exec (prog : List Nat) (argv : List (List Nat)) (envp : List (List Nat))
deriving DecidableEq

/-- The template-stub diagnostic printed before `exit(1)`. -/
def templateMsg : String := "ERROR: This is a template stub runner."

/-- Embeds the ARGC phase of `_start_rust`: sentinel check, emptiness
check, decimal parse (64-bit wrapping), range check `1..=10`. -/
def parseArgcPh (p : List Nat) : Except String Nat :=
  if isTemplatePlaceholder p then Except.error templateMsg
  else
    let len := strLen p
    if len = 0 then Except.error "ERROR: ARGC is empty"
    else
      match (p.take len).foldl (fun acc c =>
          match acc with
          | none => none
          | some a => if 48 ≤ c ∧ c ≤ 57 then some ((a * 10 + (c - 48)) % 18446744073709551616)
                      else none) (some 0) with
      | none => Except.error "ERROR: ARGC contains non-digit characters"
      | some argc =>
        if argc = 0 ∨ 10 < argc then Except.error "ERROR: Invalid argc (must be 1-10)"
        else Except.ok argc

/-- Embeds the TRANSFORM_FLAGS phase of `_start_rust`: a finalized
non-empty slot is parsed as a wrapping 32-bit decimal (non-digits are
fatal); an unfinalized or empty slot defaults to `0xFFFFFFFF`. -/
def parseFlagsPh (p : List Nat) : Except String Nat :=
  let len := strLen p
  if ¬ isTemplatePlaceholder p ∧ 0 < len then
    match (p.take len).foldl (fun acc c =>
        match acc with
        | none => none
        | some a => if 48 ≤ c ∧ c ≤ 57 then some ((a * 10 + (c - 48)) % 4294967296)
                    else none) (some 0) with
    | none => Except.error "ERROR: TRANSFORM_FLAGS contains non-digit characters"
    | some v => Except.ok v
  else Except.ok 4294967295

/-- Embeds the EXPORT_RUNFILES_ENV parse of `_start_rust` (linux.rs): a
finalized non-empty slot yields true exactly when its first byte is
`'1'`; otherwise the default is true. -/
def linuxParseExport (p : List Nat) : Bool :=
  if ¬ isTemplatePlaceholder p ∧ 0 < strLen p then p.headD 0 == 49
  else true

/-- Embeds the EXPORT_RUNFILES_ENV parse of `main` (macos.rs, and
windows.rs identically): a finalized non-empty slot yields false exactly
when its first byte is `'0'`; otherwise the default is true. -/
def macosParseExport (p : List Nat) : Bool :=
  if ¬ isTemplatePlaceholder p ∧ 0 < strLen p then p.headD 0 != 48
  else true

/-- Embeds one iteration of the embedded-argument resolution loop of
`_start_rust`: an empty slot is fatal; a slot whose transform bit is set
goes through `rlocation` (with literal fallback on a miss or when no
runfiles are available); otherwise the literal bytes are copied, capped
at 256 bytes. -/
def resolveOne (runfiles : Option Runfiles) (transformFlags i : Nat) (argData : List Nat) :
    Except String (List Nat) :=
  let argLen := strLen argData
  if argLen = 0 then Except.error "ERROR: Argument is empty"
  else
    let argSlice := argData.take argLen
    if Nat.land transformFlags (1 <<< i) ≠ 0 then
      match runfiles with
      | some rf =>
        match rf.rlocation argSlice with
        | some resolved => Except.ok resolved
        | none => Except.ok (argSlice.take 256)
      | none => Except.ok (argSlice.take 256)
    else Except.ok (argSlice.take 256)

/-- The embedded-argument resolution loop of `_start_rust`, indices
`start` to `start + n - 1`. -/
def resolveEmbeddedGo (runfiles : Option Runfiles) (transformFlags : Nat)
    (args : List (List Nat)) : Nat → Nat → Except String (List (List Nat))
  | _, 0 => Except.ok []
  | i, n + 1 =>
    match resolveOne runfiles transformFlags i (args.getD i []) with
    | Except.error e => Except.error e
    | Except.ok v =>
      match resolveEmbeddedGo runfiles transformFlags args (i + 1) n with
      | Except.error e => Except.error e
      | Except.ok rest => Except.ok (v :: rest)

/-- Resolution of all `argc` embedded arguments in index order. -/
def resolveEmbedded (runfiles : Option Runfiles) (transformFlags : Nat)
    (args : List (List Nat)) (argc : Nat) : Except String (List (List Nat)) :=
  resolveEmbeddedGo runfiles transformFlags args 0 argc

/-- Embeds the runtime-argument append loop of `_start_rust`: each
argument of `runtime_argv[1..]` is copied into the next slot, its
NUL-terminated content capped at 256 bytes; exceeding 128 total argv
slots is fatal, and the count check happens before each copy. -/
def appendRuntime (acc : List (List Nat)) : List (List Nat) → Except String (List (List Nat))
  | [] => Except.ok acc
  | a :: rest =>
    if 128 ≤ acc.length then
      Except.error "ERROR: Too many total arguments (embedded + runtime > 128)"
    else appendRuntime (acc ++ [(a.takeWhile (· ≠ 0)).take 256]) rest

/-- The child argv assembly of `_start_rust`: embedded arguments first,
then the forwarded runtime arguments (runtime `argv[0]` dropped). -/
def assembleArgv (runfiles : Option Runfiles) (transformFlags : Nat)
    (args : List (List Nat)) (argc : Nat) (runtimeArgv : List (List Nat)) :
    Except String (List (List Nat)) :=
  match resolveEmbedded runfiles transformFlags args argc with
  | Except.error e => Except.error e
  | Except.ok emb => appendRuntime emb (runtimeArgv.drop 1)

/-- The runfiles-discovery phase of `_start_rust`: the argc-bounded mask
decides whether any argument needs transformation; discovery runs only
when a relevant bit is set or the export flag is on.  `none` is the fatal
discovery failure; `some none` means discovery was not needed. -/
def runfilesPhase (sys : Sys) (argc transformFlags : Nat) (exportRunfilesEnv : Bool)
    (runtimeArgv : List (List Nat)) : Option (Option Runfiles) :=
  let argcMask := if 32 ≤ argc then 4294967295 else 2 ^ argc - 1
  let needsRunfiles := (Nat.land transformFlags argcMask != 0) || exportRunfilesEnv
  let executablePath :=
    match runtimeArgv with
    | [] => none
    | a0 :: _ =>
      let s := (a0.takeWhile (· ≠ 0)).take 256
      if 0 < s.length then some s else none
  if needsRunfiles then (Runfiles.create sys executablePath).map some else some none

/-- The environment phase of `_start_rust`: the augmented block when the
export flag is on, the untouched base environment otherwise. -/
def envPhase (sys : Sys) (exportRunfilesEnv : Bool) (runfiles : Option Runfiles) :
    Except String (List (List Nat)) :=
  if exportRunfilesEnv then build_runfiles_environ sys.environ runfiles
  else get_environ sys.environ

/-- Embeds `_start_rust` (linux.rs): sentinel check and metadata parsing,
runfiles discovery only when a relevant transform bit is set or the
export flag is on, embedded-argument resolution, runtime-argument
append, environment construction, and the `execve` handoff.  Every
diagnostic path is an `exit 1` outcome. -/
def start_rust (sys : Sys) (ph : Placeholders) (runtimeArgv : List (List Nat)) : StubOutcome :=
  match parseArgcPh ph.argcPh with
  | Except.error m => StubOutcome.exit 1 m
  | Except.ok argc =>
    match parseFlagsPh ph.flagsPh with
    | Except.error m => StubOutcome.exit 1 m
    | Except.ok transformFlags =>
      match runfilesPhase sys argc transformFlags (linuxParseExport ph.exportPh) runtimeArgv with
      | none => StubOutcome.exit 1 "ERROR: Failed to initialize runfiles"
      | some runfiles =>
        match assembleArgv runfiles transformFlags ph.args argc runtimeArgv with
        | Except.error m => StubOutcome.exit 1 m
        | Except.ok argvList =>
          match envPhase sys (linuxParseExport ph.exportPh) runfiles with
          | Except.error m => StubOutcome.exit 1 m
          | Except.ok envp => StubOutcome.exec (argvList.headD []) argvList envp

/-! ## Windows backend (`runfiles-stub/src/windows.rs`) -/

/-- The Win32 surface consumed by the Windows stub: environment-variable
lookup (`GetEnvironmentVariableA`), a file-read oracle (`CreateFileA` +
`ReadFile`), an open-with-backup-semantics oracle for directories, and
the `GetEnvironmentStringsW` block as a list of entries (terminated in
the real API by an empty string; entries are UTF-16 code units, modelled
as numbers). -/
structure WSys where
  getEnv : List Nat → Option (List Nat)
  files : List Nat → Option (List Nat)
  dirOpenable : List Nat → Bool
  envBlock : List (List Nat)

/-- Embeds `get_env_var` (windows.rs): `GetEnvironmentVariableA` into a
caller buffer; the name is NUL-terminated into a 256-byte buffer, and
the result is accepted only when `0 < size < bufLen`. -/
def wGetEnvVar (sys : WSys) (name : List Nat) (bufLen : Nat) : Option (List Nat) :=
  match sys.getEnv (name.take 255) with
  | none => none
  | some v => if 0 < v.length ∧ v.length < bufLen then some v else none

/-- Embeds `load_manifest` (windows.rs): NUL-terminate the path into a
1024-byte buffer, open and read at most 64 KiB, fail on open/read
failure or zero bytes, else parse with the Windows rules. -/
def wLoadManifest (sys : WSys) (path : List Nat) : Option (List (List Nat × List Nat)) :=
  match sys.files ((path.take 1023).takeWhile (· ≠ 0)) with
  | none => none
  | some content =>
    let data := content.take 65536
    if data.length = 0 then none else some (windowsParseManifest data)

/-- The sibling fall-back of `Runfiles::create` (windows.rs): only the
sibling directory `<exe>.runfiles`, probed by opening it with backup
semantics. -/
def winSiblingFallback (sys : WSys) (executablePath : Option (List Nat)) : Option Runfiles :=
  match executablePath with
  | none => none
  | some exePath =>
    let exeLen := strLen exePath
    if 0 < exeLen ∧ exeLen + 10 < 512 then
      let dir := exePath.take exeLen ++ strBytes ".runfiles"
      if sys.dirOpenable dir then some ⟨RunfilesMode.directoryBased dir, none, some dir⟩
      else none
    else none

/-- The `RUNFILES_DIR` step of `Runfiles::create` (windows.rs): a set and
non-empty value is used as base directory — with no existence check —
otherwise the sibling-directory fall-back runs. -/
def winEnvDirStep (sys : WSys) (executablePath : Option (List Nat)) : Option Runfiles :=
  match wGetEnvVar sys (strBytes "RUNFILES_DIR") 512 with
  | some v =>
    if 0 < v.length then some ⟨RunfilesMode.directoryBased v, none, some v⟩
    else winSiblingFallback sys executablePath
  | none => winSiblingFallback sys executablePath

/-- Embeds `Runfiles::create` (windows.rs): `RUNFILES_MANIFEST_FILE` as
manifest, then `RUNFILES_DIR` as directory without any existence check,
then the sibling directory `<exe>.runfiles` probed by opening it with
backup semantics.  There is no sibling-manifest step. -/
def windowsCreate (sys : WSys) (executablePath : Option (List Nat)) : Option Runfiles :=
  match wGetEnvVar sys (strBytes "RUNFILES_MANIFEST_FILE") 512 with
  | some v =>
    if 0 < v.length then
      match wLoadManifest sys v with
      | some m => some ⟨RunfilesMode.manifestBased m, some v, none⟩
      | none => winEnvDirStep sys executablePath
    else winEnvDirStep sys executablePath
  | none => winEnvDirStep sys executablePath

/-- Embeds the `add_env_var` closure of `build_runfiles_environ`
(windows.rs): append `name=value` to the 8192-unit block unless it does
not fit; a failed append leaves the state unchanged (and the caller
ignores the result). -/
def wAddEnvVar (st : List (List Nat) × Nat) (name value : List Nat) :
    List (List Nat) × Nat :=
  if 8192 < st.2 + (name.length + 1 + value.length + 1) then st
  else (st.1 ++ [name ++ [61] ++ value], st.2 + name.length + 1 + value.length + 1)

/-- The skip test of the Windows copy loop: an entry longer than the
prefix that matches `RUNFILES_MANIFEST_FILE=`, `RUNFILES_DIR=` or
`JAVA_RUNFILES=`. -/
def wShouldSkip (e : List Nat) : Bool :=
  (decide (23 < e.length) && (e.take 23 == strBytes "RUNFILES_MANIFEST_FILE=")) ||
  (decide (13 < e.length) && (e.take 13 == strBytes "RUNFILES_DIR=")) ||
  (decide (14 < e.length) && (e.take 14 == strBytes "JAVA_RUNFILES="))

/-- The copy loop of `build_runfiles_environ` (windows.rs): copy every
non-replaced inherited entry that still fits; entries that do not fit
are skipped silently, with no flag, no diagnostic and no exit. -/
def wCopyEnv : List (List Nat) → List (List Nat) → Nat → List (List Nat) × Nat
  | [], es, pos => (es, pos)
  | e :: rest, es, pos =>
    if wShouldSkip e then wCopyEnv rest es pos
    else if pos + e.length + 1 ≤ 8192 then wCopyEnv rest (es ++ [e]) (pos + e.length + 1)
    else wCopyEnv rest es pos

/-- Embeds `build_runfiles_environ` (windows.rs): inject the runfiles
variables (append failures ignored), then copy the inherited block,
silently dropping whatever does not fit; the function always returns a
block and never exits. -/
def windows_build_runfiles_environ (sys : WSys) (runfiles : Option Runfiles) :
    List (List Nat) :=
  let st0 : List (List Nat) × Nat := ([], 0)
  let st1 :=
    match runfiles with
    | none => st0
    | some rf =>
      let a := match rf.manifestPath with
               | some p => wAddEnvVar st0 (strBytes "RUNFILES_MANIFEST_FILE") p
               | none => st0
      match rf.dirPath with
      | some p => wAddEnvVar (wAddEnvVar a (strBytes "RUNFILES_DIR") p)
                    (strBytes "JAVA_RUNFILES") p
      | none => a
  let entries := sys.envBlock.takeWhile (· ≠ [])
  (wCopyEnv entries st1.1 st1.2).1

/-- Embeds the `add_env_var` closure of `build_runfiles_environ`
(macos.rs): as on Linux, but the pointer-table check comes first and the
data cap is 1 MiB. -/
def macosAddEnvVar (st : List (List Nat) × Nat) (name value : List Nat) :
    Option (List (List Nat) × Nat) :=
  if 1024 ≤ st.1.length then none
  else if 1048576 < st.2 + name.length + 1 + value.length + 1 then none
  else some (st.1 ++ [name ++ [61] ++ value], st.2 + name.length + 1 + value.length + 1)

/-- The injected-variable phase of `build_runfiles_environ` (macos.rs):
as on Linux, each failed insertion a distinct fatal error. -/
def macosAddRunfilesVars (rf : Runfiles) : Except String (List (List Nat) × Nat) :=
  match (match rf.manifestPath with
         | some p =>
           match macosAddEnvVar ([], 0) (strBytes "RUNFILES_MANIFEST_FILE") p with
           | some st => Except.ok st
           | none => Except.error "ERROR: Failed to add RUNFILES_MANIFEST_FILE to environment"
         | none => Except.ok (([], 0) : List (List Nat) × Nat)) with
  | Except.error e => Except.error e
  | Except.ok st1 =>
    match rf.dirPath with
    | some p =>
      match macosAddEnvVar st1 (strBytes "RUNFILES_DIR") p with
      | none => Except.error "ERROR: Failed to add RUNFILES_DIR to environment"
      | some st2 =>
        match macosAddEnvVar st2 (strBytes "JAVA_RUNFILES") p with
        | none => Except.error "ERROR: Failed to add JAVA_RUNFILES to environment"
        | some st3 => Except.ok st3
    | none => Except.ok st1

/-- The copy loop of `build_runfiles_environ` (macos.rs): unlike on
Linux, the 1024-entry pointer-table bound is part of the loop guard
(`while !(*env_ptr).is_null() && ptr_idx < MAX_ENV_VARS`), so a full
table ends the loop WITHOUT setting the dropped flag and the remaining
inherited entries are lost silently; only a data-size overflow of the
1 MiB buffer sets the flag.  Each entry is scanned to at most 4096
bytes. -/
def macosCopyEnv : List (List Nat) → List (List Nat) → Nat → Bool →
    List (List Nat) × Nat × Bool
  | [], es, pos, dropped => (es, pos, dropped)
  | e :: rest, es, pos, dropped =>
    if 1024 ≤ es.length then (es, pos, dropped)
    else
      let e2 := e.take 4096
      if isRunfilesEntry e2 then macosCopyEnv rest es pos dropped
      else if pos + e2.length + 1 ≤ 1048576 then
        macosCopyEnv rest (es ++ [e2]) (pos + e2.length + 1) dropped
      else macosCopyEnv rest es pos true

/-- Embeds `build_runfiles_environ` (macos.rs), taking the inherited
NUL-terminated entries directly (macOS reads the `environ` pointer
array, there is no `/proc` file): injected variables fail hard, the copy
loop may stop early, and only the dropped flag — which a full pointer
table never sets — turns the call into an error. -/
def macos_build_runfiles_environ (base : List (List Nat)) (runfiles : Option Runfiles) :
    Except String (List (List Nat)) :=
  match (match runfiles with
         | none => Except.ok (([], 0) : List (List Nat) × Nat)
         | some rf => macosAddRunfilesVars rf) with
  | Except.error m => Except.error m
  | Except.ok st =>
    match macosCopyEnv base st.1 st.2 false with
    | (es, _, dropped) =>
      if dropped then Except.error "ERROR: Failed to copy all environment variables"
      else Except.ok es

/-! ## Spec-side definitions (used only to compare against the embedded
code in refinement statements) -/

/-- Modelled from the spec (§4.2, amended): the POSIX manifest parse as a
line-wise filter-map — split at newline, first space splits key and
value, spaceless lines dropped, keys and values capped at 256 bytes, the
first 1024 entries kept, and the value retained byte-for-byte (no
carriage-return handling). -/
def specPosixManifest (data : List Nat) : List (List Nat × List Nat) :=
  ((splitLines data).filterMap (fun line =>
    match findByte line 32 with
    | some spacePos => some ((line.take spacePos).take 256, (line.drop (spacePos + 1)).take 256)
    | none => none)).take 1024

/-- Modelled from the spec (§4.2): the Windows manifest parse as a
line-wise filter-map — as POSIX, but a trailing carriage return is
stripped from the value and the caps are 256 entries of 512 bytes. -/
def specWindowsManifest (data : List Nat) : List (List Nat × List Nat) :=
  ((splitLines data).filterMap (fun line =>
    match findByte line 32 with
    | some spacePos =>
      let v := line.drop (spacePos + 1)
      let v2 := if v ≠ [] ∧ v.getLast? = some 13 then v.dropLast else v
      some ((line.take spacePos).take 512, v2.take 512)
    | none => none)).take 256

/-- Modelled from the spec (§4.3 step 1): `RUNFILES_MANIFEST_FILE` set
and non-empty, loaded as a manifest. -/
def specLinuxStep1 (sys : Sys) : Option Runfiles :=
  match get_env_var sys.environ (strBytes "RUNFILES_MANIFEST_FILE") 256 with
  | some v =>
    if 0 < v.length then
      match load_manifest sys (v ++ [0]) with
      | some m => some ⟨RunfilesMode.manifestBased m, some v, none⟩
      | none => none
    else none
  | none => none

/-- Modelled from the spec (§4.3 step 2): `RUNFILES_DIR` set and
non-empty, used as base directory with no existence check. -/
def specLinuxStep2 (sys : Sys) : Option Runfiles :=
  match get_env_var sys.environ (strBytes "RUNFILES_DIR") 256 with
  | some v =>
    if 0 < v.length then some ⟨RunfilesMode.directoryBased v, none, some v⟩ else none
  | none => none

/-- Modelled from the spec (§4.3 step 3): the sibling manifest
`<exe>.runfiles_manifest`, when loadable, recording the implied sibling
directory as well. -/
def specLinuxStep3 (sys : Sys) (executablePath : Option (List Nat)) : Option Runfiles :=
  match executablePath with
  | none => none
  | some exePath =>
    let exeLen := strLen exePath
    if 0 < exeLen ∧ exeLen + 19 < 256 then
      match load_manifest sys ((exePath.take exeLen ++ strBytes ".runfiles_manifest") ++ [0]) with
      | some m =>
        some ⟨RunfilesMode.manifestBased m,
              some (exePath.take exeLen ++ strBytes ".runfiles_manifest"),
              if exeLen + 9 < 256 then some (exePath.take exeLen ++ strBytes ".runfiles")
              else none⟩
      | none => none
    else none

/-- Modelled from the spec (§4.3 step 4): the sibling directory
`<exe>.runfiles`, when it exists. -/
def specLinuxStep4 (sys : Sys) (executablePath : Option (List Nat)) : Option Runfiles :=
  match executablePath with
  | none => none
  | some exePath =>
    let exeLen := strLen exePath
    if 0 < exeLen ∧ exeLen + 10 < 256 then
      if sys.dirExists (exePath.take exeLen ++ strBytes ".runfiles") then
        some ⟨RunfilesMode.directoryBased (exePath.take exeLen ++ strBytes ".runfiles"),
              none, some (exePath.take exeLen ++ strBytes ".runfiles")⟩
      else none
    else none

/-- Modelled from the spec (§4.3 step 1, Windows): the manifest
environment variable, loaded with the Windows manifest rules. -/
def specWinStep1 (sys : WSys) : Option Runfiles :=
  match wGetEnvVar sys (strBytes "RUNFILES_MANIFEST_FILE") 512 with
  | some v =>
    if 0 < v.length then
      match wLoadManifest sys v with
      | some m => some ⟨RunfilesMode.manifestBased m, some v, none⟩
      | none => none
    else none
  | none => none

/-- Modelled from the spec (§4.3 step 2, amended for Windows):
`RUNFILES_DIR` set and non-empty, used as base directory with no
existence check. -/
def specWinStep2 (sys : WSys) : Option Runfiles :=
  match wGetEnvVar sys (strBytes "RUNFILES_DIR") 512 with
  | some v =>
    if 0 < v.length then some ⟨RunfilesMode.directoryBased v, none, some v⟩ else none
  | none => none

/-- Modelled from the spec (§4.3 step 4, Windows): the sibling directory,
probed by opening it with backup semantics. -/
def specWinStep3 (sys : WSys) (executablePath : Option (List Nat)) : Option Runfiles :=
  match executablePath with
  | none => none
  | some exePath =>
    let exeLen := strLen exePath
    if 0 < exeLen ∧ exeLen + 10 < 512 then
      if sys.dirOpenable (exePath.take exeLen ++ strBytes ".runfiles") then
        some ⟨RunfilesMode.directoryBased (exePath.take exeLen ++ strBytes ".runfiles"),
              none, some (exePath.take exeLen ++ strBytes ".runfiles")⟩
      else none
    else none

/-! ## Concrete instances used by closed statements -/

deriving instance DecidableEq for Except

/-- Zero-pad a byte string to a fixed slot size (the initial layout of a
placeholder region). -/
def padTo (n : Nat) (l : List Nat) : List Nat := l ++ List.replicate (n - l.length) 0

/-- A system with no environment, no files and no directories. -/
def noSys : Sys := ⟨none, fun _ => none, fun _ => false⟩

/-- A well-formed template: the three metadata sentinels in their 32-byte
slots followed by one 256-byte argument placeholder. -/
def wfTemplate : List Nat :=
  padTo 32 argcPattern ++ padTo 32 flagsPattern ++ padTo 32 exportPattern ++
  List.replicate 256 64

/-- A template in which the TRANSFORM_FLAGS sentinel ends exactly where
the ARGC sentinel begins, so the two discovered 32-byte slots overlap. -/
def overlapTemplate : List Nat :=
  flagsPattern ++ padTo 32 argcPattern ++ padTo 32 exportPattern ++ List.replicate 256 64

/-- Placeholder state of a finalized stub: metadata contents and embedded
argument values, each zero-padded to its slot size, with the unpatched
argument slots still all `'@'`. -/
def finPh (argcB flagsB exB : List Nat) (a : List (List Nat)) : Placeholders :=
  ⟨padTo 32 argcB, padTo 32 flagsB, padTo 32 exB,
   a.map (padTo 256) ++ List.replicate (10 - a.length) (List.replicate 256 64)⟩

/-- A stub finalized with one literal argument `/t`, transform mask 0 and
export disabled. -/
def c2Ph : Placeholders := finPh [49] [48] [48] [[47, 116]]

/-- Runtime argv whose forwarded argument is 257 `'a'` bytes long. -/
def c2Rta : List (List Nat) := [[115], List.replicate 257 97]

/-- The untouched template placeholder state. -/
def templatePh : Placeholders :=
  ⟨padTo 32 argcPattern, padTo 32 flagsPattern, padTo 32 exportPattern,
   List.replicate 10 (List.replicate 256 64)⟩

/-- A directory-based runfiles value with base `/rf`. -/
def rfDir : Runfiles :=
  ⟨RunfilesMode.directoryBased (strBytes "/rf"), none, some (strBytes "/rf")⟩

/-- Two finalized argument slots holding `a/b` and `c`. -/
def c3Args : List (List Nat) := [padTo 256 (strBytes "a/b"), padTo 256 (strBytes "c")]

/-- A Windows system in which `RUNFILES_DIR` names a directory that does
not exist (every existence probe fails). -/
def c4WSys : WSys :=
  ⟨fun n => if n = strBytes "RUNFILES_DIR" then some (strBytes "C:\\nope") else none,
   fun _ => none, fun _ => false, []⟩

/-- An inherited environment entry of 1023 units; eight of them consume
exactly the 8192-unit Windows environment block. -/
def fillerEntry : List Nat := strBytes "F=" ++ List.replicate 1021 97

/-- A Windows system whose inherited environment block holds eight
block-filling entries followed by a small one. -/
def c5WSys : WSys :=
  ⟨fun _ => none, fun _ => none, fun _ => false,
   List.replicate 8 fillerEntry ++ [strBytes "A=B"]⟩

/-- A one-entry `/proc/self/environ` content. -/
def c5Env : List Nat := strBytes "A=B" ++ [0]

/-- An inherited macOS environment of 1025 entries: 1024 copies of a
small entry filling the pointer table exactly, then one more. -/
def c5MacBase : List (List Nat) :=
  List.replicate 1024 (strBytes "X=1") ++ [strBytes "A=B"]

/-! ## Lemmas: byte-slot patching -/

theorem getD_set (l : List Nat) (j a i : Nat) :
    (l.set j a).getD i 0 = if j = i ∧ j < l.length then a else l.getD i 0 := by
  induction l generalizing i j with
  | nil => simp
  | cons x xs ih =>
    cases j with
    | zero =>
      cases i with
      | zero => simp
      | succ i' => simp
    | succ j' =>
      cases i with
      | zero => simp
      | succ i' =>
        simp only [List.set, List.getD_cons_succ, List.length_cons, ih]
        by_cases h : j' = i' ∧ j' < xs.length
        · rw [if_pos h, if_pos ⟨by omega, by omega⟩]
        · rw [if_neg h, if_neg (by omega)]

theorem zeroRegion_length (d : List Nat) (o : Nat) : ∀ n, (zeroRegion d o n).length = d.length := by
  intro n
  induction n with
  | zero => rfl
  | succ n ih => simp [zeroRegion, ih]

theorem copyRegion_length : ∀ (v d : List Nat) (o : Nat), (copyRegion d o v).length = d.length := by
  intro v
  induction v with
  | nil => intro d o; rfl
  | cons b rest ih => intro d o; simp [copyRegion, ih]

theorem zeroRegion_getD (d : List Nat) (o i : Nat) :
    ∀ n, (zeroRegion d o n).getD i 0 = if o ≤ i ∧ i < o + n then 0 else d.getD i 0 := by
  intro n
  induction n with
  | zero =>
    rw [if_neg (by omega)]
    rfl
  | succ n ih =>
    simp only [zeroRegion]
    rw [getD_set, zeroRegion_length, ih]
    rcases Nat.lt_or_ge i d.length with hl | hl
    · by_cases h1 : o + n = i
      · rw [if_pos ⟨h1, by omega⟩, if_pos (by omega)]
      · rw [if_neg (by omega)]
        by_cases h2 : o ≤ i ∧ i < o + n
        · rw [if_pos h2, if_pos (by omega)]
        · rw [if_neg h2]
          by_cases h3 : o ≤ i ∧ i < o + (n + 1)
          · exact absurd (by omega : o + n = i) h1
          · rw [if_neg h3]
    · have h0 : d.getD i 0 = 0 := List.getD_eq_default _ _ (by omega)
      rw [if_neg (by omega), h0]
      split_ifs <;> rfl

theorem copyRegion_getD :
    ∀ (v d : List Nat) (o i : Nat),
      (copyRegion d o v).getD i 0 =
        if o ≤ i ∧ i < o + v.length ∧ i < d.length then v.getD (i - o) 0 else d.getD i 0 := by
  intro v
  induction v with
  | nil =>
    intro d o i
    rw [if_neg (by simp only [List.length_nil]; omega)]
    rfl
  | cons b rest ih =>
    intro d o i
    simp only [copyRegion, List.length_cons]
    rw [ih, getD_set, List.length_set]
    by_cases hi : i < d.length
    · by_cases h1 : o = i
      · subst h1
        rw [if_neg (by omega), if_pos (⟨rfl, hi⟩ : o = o ∧ o < d.length),
          if_pos (⟨Nat.le_refl o, by omega, hi⟩ :
            o ≤ o ∧ o < o + (rest.length + 1) ∧ o < d.length)]
        simp
      · by_cases h2 : o + 1 ≤ i ∧ i < o + 1 + rest.length ∧ i < d.length
        · rw [if_pos h2, if_pos (by omega)]
          have : i - o = (i - (o + 1)) + 1 := by omega
          rw [this]
          rfl
        · rw [if_neg h2, if_neg (by omega), if_neg (by omega)]
    · have h0 : d.getD i 0 = 0 := List.getD_eq_default _ _ (by omega)
      rw [if_neg (by omega), if_neg (by omega), if_neg (by omega), h0]

theorem replaceOk_length (d : List Nat) (o : Nat) (v : List Nat) (s : Nat) :
    (replaceOk d o v s).length = d.length := by
  simp [replaceOk, copyRegion_length, zeroRegion_length]

theorem replaceOk_getD (d : List Nat) (o : Nat) (v : List Nat) (s i : Nat)
    (hv : v.length ≤ s) (hr : o + s ≤ d.length) :
    (replaceOk d o v s).getD i 0 =
      if o ≤ i ∧ i < o + s then (if i - o < v.length then v.getD (i - o) 0 else 0)
      else d.getD i 0 := by
  simp only [replaceOk]
  rw [copyRegion_getD, zeroRegion_length, zeroRegion_getD]
  rcases Nat.lt_or_ge i d.length with hl | hl
  · by_cases h1 : o ≤ i ∧ i < o + v.length
    · rw [if_pos ⟨h1.1, h1.2, hl⟩, if_pos (by omega), if_pos (by omega)]
    · rw [if_neg (by omega)]
      by_cases h2 : o ≤ i ∧ i < o + s
      · rw [if_pos h2, if_pos h2, if_neg (by omega)]
      · rw [if_neg h2, if_neg h2]
  · have h0 : d.getD i 0 = 0 := List.getD_eq_default _ _ (by omega)
    rw [if_neg (by omega), if_neg (by omega), if_neg (by omega), h0]

theorem applyPatches_length :
    ∀ (ps : List (Nat × List Nat × Nat)) (d : List Nat),
      (applyPatches d ps).length = d.length := by
  intro ps
  induction ps with
  | nil => intro d; rfl
  | cons p rest ih =>
    intro d
    cases p with
    | mk o vs =>
      cases vs with
      | mk v s => simp [applyPatches, ih, replaceOk_length]

theorem applyPatches_getD_outside :
    ∀ (ps : List (Nat × List Nat × Nat)) (d : List Nat) (i : Nat),
      (∀ p ∈ ps, p.2.1.length ≤ p.2.2) →
      (∀ p ∈ ps, i < p.1 ∨ p.1 + p.2.2 ≤ i) →
      (applyPatches d ps).getD i 0 = d.getD i 0 := by
  intro ps
  induction ps with
  | nil => intro d i _ _; rfl
  | cons p rest ih =>
    intro d i hfit hout
    cases p with
    | mk o vs =>
      cases vs with
      | mk v s =>
        have h1 : v.length ≤ s := hfit _ (List.mem_cons_self _ _)
        have h2 : i < o ∨ o + s ≤ i := hout _ (List.mem_cons_self _ _)
        simp only [applyPatches]
        rw [ih _ _ (fun q hq => hfit q (List.mem_cons_of_mem _ hq))
          (fun q hq => hout q (List.mem_cons_of_mem _ hq))]
        simp only [replaceOk]
        rw [copyRegion_getD, zeroRegion_getD, zeroRegion_length]
        rw [if_neg (by omega), if_neg (by omega)]

theorem applyPatches_getD_inside :
    ∀ (ps : List (Nat × List Nat × Nat)) (d : List Nat) (p : Nat × List Nat × Nat),
      p ∈ ps →
      List.Pairwise (fun p q => p.1 + p.2.2 ≤ q.1 ∨ q.1 + q.2.2 ≤ p.1) ps →
      (∀ q ∈ ps, q.2.1.length ≤ q.2.2 ∧ q.1 + q.2.2 ≤ d.length) →
      ∀ j, j < p.2.2 →
        (applyPatches d ps).getD (p.1 + j) 0 =
          if j < p.2.1.length then p.2.1.getD j 0 else 0 := by
  intro ps
  induction ps with
  | nil => intro d p hp; exact absurd hp (List.not_mem_nil _)
  | cons q rest ih =>
    intro d p hp hpair hok j hj
    rcases List.mem_cons.mp hp with heq | hmem
    · subst heq
      simp only [applyPatches]
      rw [applyPatches_getD_outside _ _ _
        (fun r hr => ((hok r (List.mem_cons_of_mem _ hr)).1))
        (by
          intro r hr
          have hd := (List.pairwise_cons.mp hpair).1 r hr
          omega)]
      rw [replaceOk_getD _ _ _ _ _ ((hok p (List.mem_cons_self _ _)).1)
        ((hok p (List.mem_cons_self _ _)).2)]
      rw [if_pos (by omega)]
      have : p.1 + j - p.1 = j := by omega
      rw [this]
    · cases q with
      | mk o vs =>
        cases vs with
        | mk v s =>
          simp only [applyPatches]
          rw [ih _ _ hmem (List.pairwise_cons.mp hpair).2
            (by
              intro r hr
              refine ⟨(hok r (List.mem_cons_of_mem _ hr)).1, ?_⟩
              rw [replaceOk_length]
              exact (hok r (List.mem_cons_of_mem _ hr)).2) j hj]

theorem natDecimalGo_length_le :
    ∀ (fuel k n : Nat), n < 10 ^ k → (natDecimalGo fuel n).length ≤ k + 1 := by
  intro fuel
  induction fuel with
  | zero => intro k n _; simp [natDecimalGo]
  | succ fuel ih =>
    intro k n hn
    simp only [natDecimalGo]
    split_ifs with h
    · simp
    · cases k with
      | zero =>
        simp only [pow_zero, Nat.lt_one_iff] at hn
        omega
      | succ k2 =>
        have h10 : n / 10 < 10 ^ k2 := by
          rw [Nat.div_lt_iff_lt_mul (by norm_num)]
          calc n < 10 ^ (k2 + 1) := hn
            _ = 10 ^ k2 * 10 := by ring
        have hlen := ih k2 (n / 10) h10
        simp only [List.length_append, List.length_cons, List.length_nil]
        omega

theorem natDecimal_length_le (k n : Nat) (h : n < 10 ^ k) : (natDecimal n).length ≤ k + 1 :=
  natDecimalGo_length_le n k n h

theorem argPositionsGo_length (data : List Nat) :
    ∀ (n i : Nat) (l : List Nat), argPositionsGo data i n = some l → l.length = n := by
  intro n
  induction n with
  | zero =>
    intro i l h
    simp only [argPositionsGo] at h
    cases h
    rfl
  | succ n ih =>
    intro i l h
    simp only [argPositionsGo] at h
    cases hf : find_nth_pattern data argPlaceholderPattern i with
    | none => rw [hf] at h; cases h
    | some p =>
      rw [hf] at h
      cases hr : argPositionsGo data (i + 1) n with
      | none => rw [hr] at h; cases h
      | some rest =>
        rw [hr] at h
        cases h
        simp [ih (i + 1) rest hr]

theorem patchArgs_eq :
    ∀ (pvs : List (Nat × List Nat)) (d : List Nat),
      (∀ pv ∈ pvs, pv.2.length ≤ 256) →
      patchArgs d pvs =
        Except.ok (applyPatches d (pvs.map (fun pv => (pv.1, pv.2, 256)))) := by
  intro pvs
  induction pvs with
  | nil => intro d _; rfl
  | cons pv rest ih =>
    intro d hfit
    cases pv with
    | mk pos v =>
      have hv : v.length ≤ 256 := hfit _ (List.mem_cons_self _ _)
      simp only [patchArgs, replace_at]
      rw [if_neg (by omega)]
      simp only [List.map_cons, applyPatches]
      exact ih _ (fun q hq => hfit q (List.mem_cons_of_mem _ hq))

/-! ## Claim C1 -/

set_option maxHeartbeats 1600000 in
/-- C1 (amended): under the claim's well-formedness assumptions — 1 to 10
argument values of at most 256 bytes, a u32 transform mask — and with the
slots discovered by the finalizer's own scans lying inside the template
and pairwise disjoint, `finalize_stub` succeeds and produces an output in
which each patched slot holds the replacement value's bytes followed by
zeros up to the slot size, and every byte outside the patched slots
equals the corresponding template byte. -/
theorem C1_patch_frame_amended
    (data : List Nat) (argv : List (List Nat)) (transformFlags : Nat) (exportEnv : Bool)
    (aPos fPos ePos : Nat) (poss : List Nat)
    (h1 : 0 < argv.length) (h2 : argv.length ≤ 10) (htf : transformFlags < 4294967296)
    (hvs : ∀ v ∈ argv, v.length ≤ 256)
    (hA : find_pattern data argcPattern = some aPos)
    (hF : find_pattern (replaceOk data aPos (natDecimal argv.length) 32) flagsPattern =
      some fPos)
    (hE : find_pattern (replaceOk (replaceOk data aPos (natDecimal argv.length) 32) fPos
      (natDecimal transformFlags) 32) exportPattern = some ePos)
    (hP : argPositions (replaceOk (replaceOk (replaceOk data aPos (natDecimal argv.length) 32)
      fPos (natDecimal transformFlags) 32) ePos (exportBytes exportEnv) 32) argv.length =
      some poss)
    (hRange : ∀ p ∈ finPatches argv transformFlags exportEnv aPos fPos ePos poss,
      p.1 + p.2.2 ≤ data.length)
    (hDisj : List.Pairwise (fun p q => p.1 + p.2.2 ≤ q.1 ∨ q.1 + q.2.2 ≤ p.1)
      (finPatches argv transformFlags exportEnv aPos fPos ePos poss)) :
    finalize_stub data argv transformFlags exportEnv =
      Except.ok (applyPatches data (finPatches argv transformFlags exportEnv aPos fPos ePos poss)) ∧
    (∀ p ∈ finPatches argv transformFlags exportEnv aPos fPos ePos poss, ∀ j < p.2.2,
      (applyPatches data (finPatches argv transformFlags exportEnv aPos fPos ePos poss)).getD
          (p.1 + j) 0 =
        if j < p.2.1.length then p.2.1.getD j 0 else 0) ∧
    (∀ b < data.length,
      (∀ p ∈ finPatches argv transformFlags exportEnv aPos fPos ePos poss,
        b < p.1 ∨ p.1 + p.2.2 ≤ b) →
      (applyPatches data (finPatches argv transformFlags exportEnv aPos fPos ePos poss)).getD
          b 0 =
        data.getD b 0) := by
  have hlen1 : (natDecimal argv.length).length ≤ 32 := by
    have := natDecimal_length_le 2 argv.length (by omega)
    omega
  have hlen2 : (natDecimal transformFlags).length ≤ 32 := by
    have h10 : (10 : Nat) ^ 10 = 10000000000 := by norm_num
    have := natDecimal_length_le 10 transformFlags (by omega)
    omega
  have hlen3 : (exportBytes exportEnv).length ≤ 32 := by
    cases exportEnv <;> simp [exportBytes]
  have hfit : ∀ p ∈ finPatches argv transformFlags exportEnv aPos fPos ePos poss,
      p.2.1.length ≤ p.2.2 := by
    intro p hp
    simp only [finPatches, List.mem_cons, List.mem_map] at hp
    rcases hp with h | h | h | ⟨pv, hpv, h⟩
    · subst h; exact hlen1
    · subst h; exact hlen2
    · subst h; exact hlen3
    · subst h
      exact hvs _ (List.of_mem_zip hpv).2
  have hzip : ∀ pv ∈ poss.zip argv, pv.2.length ≤ 256 := by
    intro pv hpv
    exact hvs _ (List.of_mem_zip hpv).2
  have heq : finalize_stub data argv transformFlags exportEnv =
      Except.ok (applyPatches data (finPatches argv transformFlags exportEnv aPos fPos ePos poss)) := by
    unfold finalize_stub
    rw [if_neg (show ¬ argv.length = 0 by omega), if_neg (show ¬ 10 < argv.length by omega),
      hA]
    dsimp only
    rw [show replace_at data aPos (natDecimal argv.length) 32 =
        Except.ok (replaceOk data aPos (natDecimal argv.length) 32) from by
      unfold replace_at; rw [if_neg (by omega)]]
    dsimp only
    rw [hF]
    dsimp only
    rw [show replace_at (replaceOk data aPos (natDecimal argv.length) 32) fPos
        (natDecimal transformFlags) 32 =
        Except.ok (replaceOk (replaceOk data aPos (natDecimal argv.length) 32) fPos
          (natDecimal transformFlags) 32) from by
      unfold replace_at; rw [if_neg (by omega)]]
    dsimp only
    rw [hE]
    dsimp only
    rw [show replace_at (replaceOk (replaceOk data aPos (natDecimal argv.length) 32) fPos
        (natDecimal transformFlags) 32) ePos (exportBytes exportEnv) 32 =
        Except.ok (replaceOk (replaceOk (replaceOk data aPos (natDecimal argv.length) 32) fPos
          (natDecimal transformFlags) 32) ePos (exportBytes exportEnv) 32) from by
      unfold replace_at; rw [if_neg (by omega)]]
    dsimp only
    rw [hP]
    dsimp only
    rw [patchArgs_eq _ _ hzip]
    simp only [finPatches, applyPatches]
  refine ⟨heq, ?_, ?_⟩
  · intro p hp j hj
    exact applyPatches_getD_inside _ _ _ hp hDisj (fun q hq => ⟨hfit q hq, hRange q hq⟩) j hj
  · intro b _ hout
    exact applyPatches_getD_outside _ _ _ hfit hout

set_option maxRecDepth 200000 in
/-- C1 counterexample: a template containing the three metadata sentinels
and a run of 256 `'@'` bytes (all of the claim's hypotheses), in which the
TRANSFORM_FLAGS sentinel ends exactly where the ARGC slot begins.  The
ARGC slot is discovered at offset 28 and receives the value `"1"`
(byte 49), but patching the flags slot afterwards zero-fills the first
bytes of the ARGC slot, so the final output holds byte 0 where the claim
requires byte 49. -/
theorem C1_patch_frame_counterexample :
    find_pattern overlapTemplate argcPattern = some 28 ∧
    find_pattern overlapTemplate flagsPattern = some 0 ∧
    find_pattern overlapTemplate exportPattern = some 60 ∧
    find_nth_pattern overlapTemplate argPlaceholderPattern 0 = some 92 ∧
    (finalize_stub overlapTemplate [[104]] 0 true).toOption.map (fun out => out.getD 28 0) =
      some 0 ∧
    natDecimal (List.length ([[104]] : List (List Nat))) = [49] := by
  exact ⟨by decide, by decide, by decide, by decide, by decide, by decide⟩

set_option maxRecDepth 200000 in
/-- C1 witness: the amended frame theorem applied to a standard template
with one embedded argument `"x"`; the discovered slots are 0, 32, 64 and
96, and the patched output holds the ARGC byte `'1'` at offset 0 and the
argument byte `'x'` at offset 96. -/
theorem C1_patch_frame_witness :
    finalize_stub wfTemplate [[120]] 0 true =
      Except.ok (applyPatches wfTemplate (finPatches [[120]] 0 true 0 32 64 [96])) ∧
    (applyPatches wfTemplate (finPatches [[120]] 0 true 0 32 64 [96])).getD 0 0 = 49 ∧
    (applyPatches wfTemplate (finPatches [[120]] 0 true 0 32 64 [96])).getD 96 0 = 120 := by
  have h := C1_patch_frame_amended wfTemplate [[120]] 0 true 0 32 64 [96]
    (by decide) (by decide) (by decide) (by decide)
    (by decide) (by decide) (by decide) (by decide)
    (by decide) (by decide)
  exact ⟨h.1, by decide, by decide⟩

/-! ## Lemmas: stub runtime -/

theorem take_strLen (l : List Nat) : l.take (strLen l) = l.takeWhile (· ≠ 0) := by
  induction l with
  | nil => rfl
  | cons x xs ih =>
    unfold strLen at ih ⊢
    by_cases hx : x = 0
    · subst hx
      rw [List.takeWhile_cons, if_neg (by simp)]
      rfl
    · rw [List.takeWhile_cons, if_pos (by simp [hx])]
      simp only [List.length_cons, List.take_succ_cons]
      rw [ih]

theorem land_one_shiftLeft_ne_zero (flags i : Nat) :
    (Nat.land flags (1 <<< i) ≠ 0) ↔ Nat.testBit flags i = true := by
  have h1 : (1 : Nat) <<< i = 2 ^ i := by
    rw [Nat.shiftLeft_eq, one_mul]
  show (flags &&& (1 <<< i) ≠ 0) ↔ _
  rw [h1, Nat.and_two_pow]
  cases hb : flags.testBit i <;> simp

theorem appendRuntime_ok :
    ∀ (rest acc out : List (List Nat)),
      appendRuntime acc rest = Except.ok out →
      out = acc ++ rest.map (fun a => (a.takeWhile (· ≠ 0)).take 256) := by
  intro rest
  induction rest with
  | nil =>
    intro acc out h
    simp only [appendRuntime] at h
    cases h
    simp
  | cons a rest ih =>
    intro acc out h
    simp only [appendRuntime] at h
    by_cases hc : 128 ≤ acc.length
    · rw [if_pos hc] at h
      exact Except.noConfusion h
    · rw [if_neg hc] at h
      have hr := ih _ _ h
      simp only [List.map_cons]
      rw [hr]
      simp

theorem resolveEmbeddedGo_ok :
    ∀ (n i : Nat) (runfiles : Option Runfiles) (transformFlags : Nat)
      (args : List (List Nat)) (l : List (List Nat)),
      resolveEmbeddedGo runfiles transformFlags args i n = Except.ok l →
      l.length = n ∧
      ∀ k < n, resolveOne runfiles transformFlags (i + k) (args.getD (i + k) []) =
        Except.ok (l.getD k []) := by
  intro n
  induction n with
  | zero =>
    intro i runfiles transformFlags args l h
    simp only [resolveEmbeddedGo] at h
    cases h
    exact ⟨rfl, fun k hk => absurd hk (by omega)⟩
  | succ n ih =>
    intro i runfiles transformFlags args l h
    simp only [resolveEmbeddedGo] at h
    cases h1 : resolveOne runfiles transformFlags i (args.getD i []) with
    | error e => rw [h1] at h; exact Except.noConfusion h
    | ok v =>
      rw [h1] at h
      cases h2 : resolveEmbeddedGo runfiles transformFlags args (i + 1) n with
      | error e => rw [h2] at h; exact Except.noConfusion h
      | ok rest =>
        rw [h2] at h
        cases h
        have hrec := ih (i + 1) runfiles transformFlags args rest h2
        refine ⟨by simp [hrec.1], ?_⟩
        intro k hk
        cases k with
        | zero => simpa using h1
        | succ k2 =>
          have := hrec.2 k2 (by omega)
          have harg : i + 1 + k2 = i + (k2 + 1) := by omega
          rw [harg] at this
          simpa using this

theorem start_rust_exec_inversion (sys : Sys) (ph : Placeholders) (rta : List (List Nat))
    (prog : List Nat) (argv envp : List (List Nat))
    (h : start_rust sys ph rta = StubOutcome.exec prog argv envp) :
    ∃ argc transformFlags runfiles emb,
      parseArgcPh ph.argcPh = Except.ok argc ∧
      parseFlagsPh ph.flagsPh = Except.ok transformFlags ∧
      resolveEmbedded runfiles transformFlags ph.args argc = Except.ok emb ∧
      emb.length = argc ∧
      argv = emb ++ (rta.drop 1).map (fun a => (a.takeWhile (· ≠ 0)).take 256) ∧
      prog = argv.headD [] := by
  unfold start_rust at h
  split at h
  · exact StubOutcome.noConfusion h
  · rename_i argc hargc
    split at h
    · exact StubOutcome.noConfusion h
    · rename_i transformFlags hflags
      split at h
      · exact StubOutcome.noConfusion h
      · rename_i runfiles hrf
        split at h
        · exact StubOutcome.noConfusion h
        · rename_i argvList hasm
          split at h
          · exact StubOutcome.noConfusion h
          · rename_i envpList henv
            injection h with hp ha he
            subst hp
            subst ha
            subst he
            unfold assembleArgv at hasm
            cases hre : resolveEmbedded runfiles transformFlags ph.args argc with
            | error e => rw [hre] at hasm; exact Except.noConfusion hasm
            | ok emb =>
              rw [hre] at hasm
              have hlen := (resolveEmbeddedGo_ok argc 0 runfiles transformFlags ph.args emb hre).1
              exact ⟨argc, transformFlags, runfiles, emb, hargc, hflags, hre, hlen,
                appendRuntime_ok _ _ _ hasm, rfl⟩

/-! ## Claim C2 -/

/-- C2 (amended): every run of the stub that reaches the `execve` handoff
passes the child an argv consisting of exactly the `argc` resolved
embedded arguments in index order, followed by the stub's runtime
arguments `runtime_argv[1..]` in order, each runtime argument truncated
to its first 256 NUL-terminated bytes, for a total of
`argc + (runtime_argc - 1)` entries, with the program path being the
first entry. -/
theorem C2_child_argv_composition (sys : Sys) (ph : Placeholders) (rta : List (List Nat))
    (prog : List Nat) (argv envp : List (List Nat))
    (h : start_rust sys ph rta = StubOutcome.exec prog argv envp) :
    ∃ argc transformFlags runfiles emb,
      parseArgcPh ph.argcPh = Except.ok argc ∧
      parseFlagsPh ph.flagsPh = Except.ok transformFlags ∧
      resolveEmbedded runfiles transformFlags ph.args argc = Except.ok emb ∧
      emb.length = argc ∧
      argv = emb ++ (rta.drop 1).map (fun a => (a.takeWhile (· ≠ 0)).take 256) ∧
      argv.length = argc + (rta.length - 1) ∧
      prog = argv.headD [] := by
  obtain ⟨argc, transformFlags, runfiles, emb, h1, h2, h3, h4, h5, h6⟩ :=
    start_rust_exec_inversion sys ph rta prog argv envp h
  refine ⟨argc, transformFlags, runfiles, emb, h1, h2, h3, h4, h5, ?_, h6⟩
  rw [h5]
  simp [h4]

set_option maxRecDepth 200000 in
/-- C2 counterexample: a finalized stub with one embedded literal
argument, run with a single 257-byte runtime argument, reaches the
handoff with a child argv whose second entry is the 256-byte truncation
of the runtime argument — not the runtime argument itself, contradicting
the claim's "exactly ... followed by the stub's own runtime
arguments". -/
theorem C2_child_argv_counterexample :
    start_rust noSys c2Ph c2Rta =
      StubOutcome.exec [47, 116] [[47, 116], List.replicate 256 97] [] ∧
    c2Rta.getD 1 [] = List.replicate 257 97 ∧
    ([[47, 116], List.replicate 256 97] : List (List Nat)).getD 1 [] ≠ c2Rta.getD 1 [] := by
  exact ⟨by decide, by decide, by decide⟩

set_option maxRecDepth 200000 in
/-- C2 witness: the amended composition theorem applied to the concrete
handoff-reaching run of `c2Ph` with runtime argv `c2Rta`. -/
theorem C2_child_argv_witness :
    ∃ argc transformFlags runfiles emb,
      parseArgcPh c2Ph.argcPh = Except.ok argc ∧
      parseFlagsPh c2Ph.flagsPh = Except.ok transformFlags ∧
      resolveEmbedded runfiles transformFlags c2Ph.args argc = Except.ok emb ∧
      emb.length = argc ∧
      ([[47, 116], List.replicate 256 97] : List (List Nat)) =
        emb ++ (c2Rta.drop 1).map (fun a => (a.takeWhile (· ≠ 0)).take 256) ∧
      ([[47, 116], List.replicate 256 97] : List (List Nat)).length =
        argc + (c2Rta.length - 1) ∧
      ([47, 116] : List Nat) = ([[47, 116], List.replicate 256 97] : List (List Nat)).headD [] :=
  C2_child_argv_composition noSys c2Ph c2Rta [47, 116]
    [[47, 116], List.replicate 256 97] [] (by decide)

/-! ## Claim C3 -/

/-- C3: within a successful embedded-argument resolution with runfiles
available, argument `i` is passed through `rlocation` exactly when bit
`i` of the transform mask is set; when the bit is clear, or the lookup
misses, the literal embedded bytes are used unchanged. -/
theorem C3_transform_mask (rf : Runfiles) (transformFlags argc i : Nat)
    (args : List (List Nat)) (resolved : List (List Nat))
    (hres : resolveEmbedded (some rf) transformFlags args argc = Except.ok resolved)
    (hi : i < argc) :
    resolved.getD i [] =
      (if Nat.testBit transformFlags i = true then
        match rf.rlocation ((args.getD i []).takeWhile (· ≠ 0)) with
        | some r => r
        | none => ((args.getD i []).takeWhile (· ≠ 0)).take 256
      else ((args.getD i []).takeWhile (· ≠ 0)).take 256) := by
  have h := (resolveEmbeddedGo_ok argc 0 (some rf) transformFlags args resolved hres).2 i hi
  rw [Nat.zero_add] at h
  simp only [resolveOne] at h
  by_cases h0 : strLen (args.getD i []) = 0
  · rw [if_pos h0] at h
    exact Except.noConfusion h
  · rw [if_neg h0, take_strLen] at h
    by_cases ht : Nat.land transformFlags (1 <<< i) ≠ 0
    · rw [if_pos ht] at h
      rw [if_pos ((land_one_shiftLeft_ne_zero transformFlags i).mp ht)]
      cases hr : rf.rlocation ((args.getD i []).takeWhile (· ≠ 0)) with
      | none =>
        rw [hr] at h
        injection h with h2
        rw [← h2]
      | some r =>
        rw [hr] at h
        injection h with h2
        rw [← h2]
    · rw [if_neg ht] at h
      rw [if_neg (by
        intro hb
        exact ht ((land_one_shiftLeft_ne_zero transformFlags i).mpr hb))]
      injection h with h2
      rw [← h2]

set_option maxRecDepth 200000 in
/-- C3 witness: the transform-mask theorem applied to a directory-based
runfiles value with mask 1 over two embedded arguments; argument 0 is
resolved through `rlocation`, argument 1 is the literal. -/
theorem C3_transform_mask_witness :
    resolveEmbedded (some rfDir) 1 c3Args 2 =
      Except.ok [strBytes "/rf/a/b", strBytes "c"] ∧
    ([strBytes "/rf/a/b", strBytes "c"] : List (List Nat)).getD 0 [] =
      (if Nat.testBit 1 0 = true then
        match rfDir.rlocation ((c3Args.getD 0 []).takeWhile (· ≠ 0)) with
        | some r => r
        | none => ((c3Args.getD 0 []).takeWhile (· ≠ 0)).take 256
      else ((c3Args.getD 0 []).takeWhile (· ≠ 0)).take 256) ∧
    ([strBytes "/rf/a/b", strBytes "c"] : List (List Nat)).getD 1 [] =
      (if Nat.testBit 1 1 = true then
        match rfDir.rlocation ((c3Args.getD 1 []).takeWhile (· ≠ 0)) with
        | some r => r
        | none => ((c3Args.getD 1 []).takeWhile (· ≠ 0)).take 256
      else ((c3Args.getD 1 []).takeWhile (· ≠ 0)).take 256) :=
  ⟨by decide,
   C3_transform_mask rfDir 1 2 0 c3Args [strBytes "/rf/a/b", strBytes "c"]
     (by decide) (by decide),
   C3_transform_mask rfDir 1 2 1 c3Args [strBytes "/rf/a/b", strBytes "c"]
     (by decide) (by decide)⟩

/-! ## Claim C7 -/

/-- C7: a stub whose ARGC placeholder still begins with the
`"@@RUNFILES_"` sentinel exits 1 with the template-stub diagnostic, for
every system state and every runtime argv — so no runfiles discovery
outcome, argv content or environment can influence the result, and the
`execve` handoff is never reached. -/
theorem C7_sentinel_safety (sys : Sys) (ph : Placeholders) (rta : List (List Nat))
    (h17 : 17 ≤ ph.argcPh.length)
    (hpre : strStartsWith ph.argcPh sentinelBytes = true) :
    start_rust sys ph rta = StubOutcome.exit 1 templateMsg ∧
    ∀ prog argv envp, start_rust sys ph rta ≠ StubOutcome.exec prog argv envp := by
  have htp : isTemplatePlaceholder ph.argcPh = true := by
    unfold isTemplatePlaceholder
    rw [if_neg (by omega)]
    exact hpre
  have h1 : parseArgcPh ph.argcPh = Except.error templateMsg := by
    unfold parseArgcPh
    rw [if_pos htp]
  have hs : start_rust sys ph rta = StubOutcome.exit 1 templateMsg := by
    unfold start_rust
    rw [h1]
  refine ⟨hs, ?_⟩
  intro prog argv envp hc
  rw [hs] at hc
  exact StubOutcome.noConfusion hc

/-- C7 witness: the sentinel-safety theorem applied to the untouched
template placeholder state. -/
theorem C7_sentinel_safety_witness :
    start_rust noSys templatePh [] = StubOutcome.exit 1 templateMsg ∧
    17 ≤ templatePh.argcPh.length :=
  ⟨(C7_sentinel_safety noSys templatePh [] (by decide) (by decide)).1, by decide⟩

/-! ## Claim C10 -/

/-- C10: the runtime-argument append loop copies each forwarded argument
truncated to its first 256 NUL-terminated bytes into its argv slot, and
succeeds with no error whenever the total argv count fits in 128 slots —
the byte length of an argument can never cause a diagnostic or an
error. -/
theorem C10_runtime_truncation (acc rest : List (List Nat))
    (h : acc.length + rest.length ≤ 128) :
    appendRuntime acc rest =
      Except.ok (acc ++ rest.map (fun a => (a.takeWhile (· ≠ 0)).take 256)) := by
  induction rest generalizing acc with
  | nil => simp [appendRuntime]
  | cons a rest ih =>
    simp only [appendRuntime, List.length_cons] at h ⊢
    rw [if_neg (by omega)]
    rw [ih _ (by simp; omega)]
    simp

set_option maxRecDepth 200000 in
/-- C10 witness: the truncation theorem applied to a 300-byte runtime
argument; the copied slot is its first 256 bytes and the append
succeeds. -/
theorem C10_runtime_truncation_witness :
    appendRuntime [[120]] [List.replicate 300 97] =
      Except.ok [[120], List.replicate 256 97] ∧
    256 < (List.replicate 300 97).length :=
  ⟨(C10_runtime_truncation [[120]] [List.replicate 300 97] (by decide)).trans (by decide),
   by decide⟩

/-! ## Claim C4 -/

theorem linuxSiblingFallback_eq (sys : Sys) (exe : Option (List Nat)) :
    linuxSiblingFallback sys exe = (specLinuxStep3 sys exe <|> specLinuxStep4 sys exe) := by
  unfold linuxSiblingFallback specLinuxStep3 specLinuxStep4
  cases exe with
  | none => rfl
  | some exePath =>
    dsimp only
    cases hm : load_manifest sys
        ((exePath.take (strLen exePath) ++ strBytes ".runfiles_manifest") ++ [0]) with
    | some m => split_ifs <;> first | rfl | (exfalso; omega)
    | none => split_ifs <;> first | rfl | (exfalso; omega)

theorem linuxEnvDirStep_eq (sys : Sys) (exe : Option (List Nat)) :
    linuxEnvDirStep sys exe =
      (specLinuxStep2 sys <|> specLinuxStep3 sys exe <|> specLinuxStep4 sys exe) := by
  unfold linuxEnvDirStep specLinuxStep2
  cases h1 : get_env_var sys.environ (strBytes "RUNFILES_DIR") 256 with
  | none => simp [linuxSiblingFallback_eq]
  | some v =>
    dsimp only
    split_ifs
    · simp
    · simp [linuxSiblingFallback_eq]

theorem winSiblingFallback_eq (sys : WSys) (exe : Option (List Nat)) :
    winSiblingFallback sys exe = specWinStep3 sys exe := by
  unfold winSiblingFallback specWinStep3
  cases exe with
  | none => rfl
  | some exePath => rfl

theorem winEnvDirStep_eq (sys : WSys) (exe : Option (List Nat)) :
    winEnvDirStep sys exe = (specWinStep2 sys <|> specWinStep3 sys exe) := by
  unfold winEnvDirStep specWinStep2
  cases h1 : wGetEnvVar sys (strBytes "RUNFILES_DIR") 512 with
  | none => simp [winSiblingFallback_eq]
  | some v =>
    dsimp only
    split_ifs
    · simp
    · simp [winSiblingFallback_eq]

/-- C4 (amended): `Runfiles::create` is the ordered first-success
composition of its discovery steps, and returns `none` only when every
step fails.  On Linux the steps are: (1) `RUNFILES_MANIFEST_FILE` as a
manifest, (2) `RUNFILES_DIR` as base directory with no existence check,
(3) the sibling manifest `<exe>.runfiles_manifest` if loadable, (4) the
sibling directory `<exe>.runfiles` if it exists.  On Windows the steps
are: (1) `RUNFILES_MANIFEST_FILE` as a manifest, (2) `RUNFILES_DIR` as
base directory — also with no existence check — and (3) the sibling
directory probed by opening it with backup semantics; Windows has no
sibling-manifest step. -/
theorem C4_discovery_order_amended :
    (∀ (sys : Sys) (exe : Option (List Nat)),
      Runfiles.create sys exe =
        (specLinuxStep1 sys <|> specLinuxStep2 sys <|> specLinuxStep3 sys exe <|>
          specLinuxStep4 sys exe)) ∧
    (∀ (sys : WSys) (exe : Option (List Nat)),
      windowsCreate sys exe =
        (specWinStep1 sys <|> specWinStep2 sys <|> specWinStep3 sys exe)) := by
  constructor
  · intro sys exe
    unfold Runfiles.create specLinuxStep1
    cases h1 : get_env_var sys.environ (strBytes "RUNFILES_MANIFEST_FILE") 256 with
    | none => simp [linuxEnvDirStep_eq]
    | some v =>
      dsimp only
      split_ifs
      · cases hm : load_manifest sys (v ++ [0]) with
        | some m => simp
        | none => simp [linuxEnvDirStep_eq]
      · simp [linuxEnvDirStep_eq]
  · intro sys exe
    unfold windowsCreate specWinStep1
    cases h1 : wGetEnvVar sys (strBytes "RUNFILES_MANIFEST_FILE") 512 with
    | none => simp [winEnvDirStep_eq]
    | some v =>
      dsimp only
      split_ifs
      · cases hm : wLoadManifest sys v with
        | some m => simp
        | none => simp [winEnvDirStep_eq]
      · simp [winEnvDirStep_eq]

set_option maxRecDepth 200000 in
/-- C4 counterexample: on Windows, a set non-empty `RUNFILES_DIR`
pointing at a directory that does not exist (every existence probe fails,
no file is readable) still yields a directory-based runfiles value —
refuting the claim's "existence check on Windows" for step (2). -/
theorem C4_discovery_order_counterexample :
    windowsCreate c4WSys none =
      some ⟨RunfilesMode.directoryBased (strBytes "C:\\nope"), none,
        some (strBytes "C:\\nope")⟩ ∧
    c4WSys.dirOpenable (strBytes "C:\\nope") = false ∧
    c4WSys.files (strBytes "C:\\nope") = none := by
  exact ⟨by decide, by decide, by decide⟩

/-! ## Claim C5 -/

theorem linuxCopyEnv_dropped :
    ∀ (l es : List (List Nat)) (pos : Nat), (linuxCopyEnv l es pos true).2.2 = true := by
  intro l
  induction l with
  | nil => intro es pos; rfl
  | cons e rest ih =>
    intro es pos
    simp only [linuxCopyEnv]
    split_ifs <;> apply ih

theorem linuxCopyEnv_mem :
    ∀ (l es : List (List Nat)) (pos : Nat) (es2 : List (List Nat)) (p2 : Nat),
      linuxCopyEnv l es pos false = (es2, p2, false) →
      (∀ e ∈ es, e ∈ es2) ∧ (∀ e ∈ l, isRunfilesEntry e = false → e ∈ es2) := by
  intro l
  induction l with
  | nil =>
    intro es pos es2 p2 h
    simp only [linuxCopyEnv] at h
    injection h with h1 h2
    subst h1
    exact ⟨fun e he => he, fun e he => absurd he (List.not_mem_nil e)⟩
  | cons e rest ih =>
    intro es pos es2 p2 h
    simp only [linuxCopyEnv] at h
    by_cases h1 : isRunfilesEntry e = true
    · rw [if_pos h1] at h
      have hr := ih _ _ _ _ h
      refine ⟨hr.1, ?_⟩
      intro x hx hxr
      rcases List.mem_cons.mp hx with heq | hmem
      · subst heq
        rw [h1] at hxr
        exact Bool.noConfusion hxr
      · exact hr.2 x hmem hxr
    · rw [if_neg h1] at h
      by_cases h2 : pos + e.length + 1 ≤ 6291456 ∧ es.length < 1024
      · rw [if_pos h2] at h
        have hr := ih _ _ _ _ h
        refine ⟨fun x hx => hr.1 x (by simp [hx]), ?_⟩
        intro x hx hxr
        rcases List.mem_cons.mp hx with heq | hmem
        · subst heq
          exact hr.1 x (by simp)
        · exact hr.2 x hmem hxr
      · rw [if_neg h2] at h
        have hd := linuxCopyEnv_dropped rest es pos
        rw [h] at hd
        exact Bool.noConfusion hd

/-- C5 (amended): on Linux, a successful `build_runfiles_environ` block
contains every inherited entry that is not one of the three replaced
runfiles variables — entries are never silently dropped, since an entry
that does not fit (by size or by count) makes the whole call fail with
an error exit.  Neither macOS, whose copy loop ends silently once the
1024-entry pointer table is full, nor Windows, which silently skips
entries that do not fit, has this property (see the counterexample). -/
theorem C5_env_complete_or_refuse (environ : Option (List Nat)) (runfiles : Option Runfiles)
    (base out : List (List Nat))
    (hbase : get_environ environ = Except.ok base)
    (hok : build_runfiles_environ environ runfiles = Except.ok out) :
    ∀ e ∈ base, isRunfilesEntry e = false → e ∈ out := by
  unfold build_runfiles_environ at hok
  rw [hbase] at hok
  cases runfiles with
  | none =>
    dsimp only at hok
    injection hok with h1
    subst h1
    intro e he _
    exact he
  | some rf =>
    dsimp only at hok
    cases haddv : addRunfilesVars rf with
    | error m => rw [haddv] at hok; exact Except.noConfusion hok
    | ok st =>
      rw [haddv] at hok
      dsimp only at hok
      rcases hcopy : linuxCopyEnv base st.1 st.2 false with ⟨es2, p2, dropped⟩
      rw [hcopy] at hok
      dsimp only at hok
      cases dropped with
      | true =>
        rw [if_pos rfl] at hok
        exact Except.noConfusion hok
      | false =>
        rw [if_neg (by simp)] at hok
        injection hok with h1
        subst h1
        exact (linuxCopyEnv_mem base st.1 st.2 es2 p2 hcopy).2

set_option maxRecDepth 400000 in
/-- C5 counterexample, in two halves.  macOS: the builder, given 1024
small inherited entries filling the pointer table exactly and then the
entry `A=B`, SUCCEEDS with a block missing `A=B` — the full table ends
the copy loop before the dropped flag can be set, so no error is
possible and the child would be started with a partial environment.
Windows: the builder, given an inherited block whose first eight
entries fill the 8192-unit buffer exactly, returns a block without the
ninth entry `A=B` — no error is raised, the Windows builder's return
type having no failure path at all.  In both halves the lost entry is
not one of the replaced runfiles variables. -/
theorem C5_env_counterexample :
    (macos_build_runfiles_environ c5MacBase none =
      Except.ok (List.replicate 1024 (strBytes "X=1")) ∧
     strBytes "A=B" ∈ c5MacBase ∧
     isRunfilesEntry (strBytes "A=B") = false ∧
     strBytes "A=B" ∉ List.replicate 1024 (strBytes "X=1")) ∧
    (windows_build_runfiles_environ c5WSys none = List.replicate 8 fillerEntry ∧
     strBytes "A=B" ∈ c5WSys.envBlock ∧
     wShouldSkip (strBytes "A=B") = false ∧
     strBytes "A=B" ∉ List.replicate 8 fillerEntry) := by
  exact ⟨⟨by decide, by decide, by decide, by decide⟩,
         ⟨by decide, by decide, by decide, by decide⟩⟩

set_option maxRecDepth 200000 in
/-- C5 witness: the completeness theorem applied to a one-entry
environment and a directory-based runfiles value; the inherited entry
`A=B` survives in the augmented block. -/
theorem C5_env_witness :
    build_runfiles_environ (some c5Env) (some rfDir) =
      Except.ok [strBytes "RUNFILES_DIR=/rf", strBytes "JAVA_RUNFILES=/rf", strBytes "A=B"] ∧
    strBytes "A=B" ∈
      [strBytes "RUNFILES_DIR=/rf", strBytes "JAVA_RUNFILES=/rf", strBytes "A=B"] :=
  ⟨by decide,
   C5_env_complete_or_refuse (some c5Env) (some rfDir) [strBytes "A=B"]
     [strBytes "RUNFILES_DIR=/rf", strBytes "JAVA_RUNFILES=/rf", strBytes "A=B"]
     (by decide) (by decide) (strBytes "A=B") (by decide) (by decide)⟩

/-! ## Claim C6 -/

theorem linuxFold_eq :
    ∀ (lines : List (List Nat)) (m : List (List Nat × List Nat)),
      lines.foldl (fun m line =>
        match findByte line 32 with
        | some spacePos => addEntry 1024 256 m (line.take spacePos) (line.drop (spacePos + 1))
        | none => m) m =
      m ++ (lines.filterMap (fun line =>
        match findByte line 32 with
        | some spacePos =>
          some ((line.take spacePos).take 256, (line.drop (spacePos + 1)).take 256)
        | none => none)).take (1024 - m.length) := by
  intro lines
  induction lines with
  | nil => intro m; simp
  | cons line rest ih =>
    intro m
    simp only [List.foldl_cons, List.filterMap_cons]
    cases hsp : findByte line 32 with
    | none =>
      dsimp only
      exact ih m
    | some spacePos =>
      dsimp only
      by_cases hful : 1024 ≤ m.length
      · have hstep : addEntry 1024 256 m (line.take spacePos) (line.drop (spacePos + 1)) = m := by
          unfold addEntry
          rw [if_pos hful]
        rw [hstep, ih]
        have h0 : 1024 - m.length = 0 := by omega
        rw [h0]
        simp
      · have hstep : addEntry 1024 256 m (line.take spacePos) (line.drop (spacePos + 1)) =
            m ++ [((line.take spacePos).take 256, (line.drop (spacePos + 1)).take 256)] := by
          unfold addEntry
          rw [if_neg hful]
        rw [hstep, ih]
        have hE : 1024 - m.length = (1024 - (m.length + 1)) + 1 := by omega
        simp only [List.length_append, List.length_cons, List.length_nil, Nat.zero_add]
        rw [hE, List.take_succ_cons]
        simp

theorem windowsFold_eq :
    ∀ (lines : List (List Nat)) (m : List (List Nat × List Nat)),
      lines.foldl (fun m line =>
        match findByte line 32 with
        | some spacePos =>
          let v := line.drop (spacePos + 1)
          let v2 := if v ≠ [] ∧ v.getLast? = some 13 then v.dropLast else v
          addEntry 256 512 m (line.take spacePos) v2
        | none => m) m =
      m ++ (lines.filterMap (fun line =>
        match findByte line 32 with
        | some spacePos =>
          let v := line.drop (spacePos + 1)
          let v2 := if v ≠ [] ∧ v.getLast? = some 13 then v.dropLast else v
          some ((line.take spacePos).take 512, v2.take 512)
        | none => none)).take (256 - m.length) := by
  intro lines
  induction lines with
  | nil => intro m; simp
  | cons line rest ih =>
    intro m
    simp only [List.foldl_cons, List.filterMap_cons]
    cases hsp : findByte line 32 with
    | none =>
      dsimp only
      exact ih m
    | some spacePos =>
      dsimp only
      generalize (if line.drop (spacePos + 1) ≠ [] ∧ (line.drop (spacePos + 1)).getLast? = some 13
        then (line.drop (spacePos + 1)).dropLast else line.drop (spacePos + 1)) = v2
      by_cases hful : 256 ≤ m.length
      · have hstep : addEntry 256 512 m (line.take spacePos) v2 = m := by
          unfold addEntry
          rw [if_pos hful]
        rw [hstep, ih]
        have h0 : 256 - m.length = 0 := by omega
        rw [h0]
        simp
      · have hstep : addEntry 256 512 m (line.take spacePos) v2 =
            m ++ [((line.take spacePos).take 512, v2.take 512)] := by
          unfold addEntry
          rw [if_neg hful]
        rw [hstep, ih]
        have hE : 256 - m.length = (256 - (m.length + 1)) + 1 := by omega
        simp only [List.length_append, List.length_cons, List.length_nil, Nat.zero_add]
        rw [hE, List.take_succ_cons]
        simp

/-- C6 (amended): `load_manifest` splits its input at newline bytes and
within each line the first space separates key from value, lines without
a space being silently ignored, and for duplicate keys lookup returns
the first matching entry — but a trailing carriage return is stripped
from the value ONLY by the Windows parser; the Linux and macOS parser
keeps it (see the counterexample).  Stated as a refinement: each
embedded parser equals the corresponding spec-side filter-map, and the
first-match law holds for the embedded lookup. -/
theorem C6_manifest_parsing_amended :
    (∀ data, linuxParseManifest data = specPosixManifest data) ∧
    (∀ data, windowsParseManifest data = specWindowsManifest data) ∧
    (∀ (pre : List (List Nat × List Nat)) (k v : List Nat) (post : List (List Nat × List Nat)),
      (∀ e ∈ pre, e.1 ≠ k) → manifest_lookup (pre ++ (k, v) :: post) k = some v) := by
  refine ⟨?_, ?_, ?_⟩
  · intro data
    unfold linuxParseManifest specPosixManifest
    rw [linuxFold_eq]
    simp
  · intro data
    unfold windowsParseManifest specWindowsManifest
    rw [windowsFold_eq]
    simp
  · intro pre
    induction pre with
    | nil =>
      intro k v post h
      simp [manifest_lookup]
    | cons e rest ih =>
      intro k v post h
      have hne : e.1 ≠ k := h e (by simp)
      simp only [List.cons_append, manifest_lookup]
      rw [if_neg hne]
      exact ih k v post (fun x hx => h x (by simp [hx]))

/-- C6 counterexample: on the manifest content `"a b\r\n"` the Linux and
macOS parser stores the value `"b\r"` with the carriage return kept,
while the Windows parser strips it; the claim's unconditional "a
trailing carriage return is stripped" is false for Linux and macOS. -/
theorem C6_manifest_parsing_counterexample :
    manifest_lookup (linuxParseManifest (strBytes "a b" ++ [13, 10])) (strBytes "a") =
      some [98, 13] ∧
    manifest_lookup (windowsParseManifest (strBytes "a b" ++ [13, 10])) (strBytes "a") =
      some [98] ∧
    ([98, 13] : List Nat) ≠ [98] := by
  exact ⟨by decide, by decide, by decide⟩

/-- C6 witness: the first-match law of the amended theorem at a concrete
table with a duplicate key — lookup of `a` returns the first value `v`,
not the later `w`. -/
theorem C6_manifest_parsing_witness :
    manifest_lookup ([(strBytes "x", strBytes "1")] ++
      (strBytes "a", strBytes "v") :: [(strBytes "a", strBytes "w")]) (strBytes "a") =
      some (strBytes "v") :=
  C6_manifest_parsing_amended.2.2 [(strBytes "x", strBytes "1")] (strBytes "a")
    (strBytes "v") [(strBytes "a", strBytes "w")] (by decide)

/-! ## Claim C8 -/

theorem takeWhile_pad (c : List Nat) (n : Nat) (hnz : ∀ b ∈ c, b ≠ 0) :
    (c ++ List.replicate n 0).takeWhile (· ≠ 0) = c := by
  induction c with
  | nil =>
    cases n with
    | zero => rfl
    | succ k => simp [List.replicate_succ, List.takeWhile_cons]
  | cons b cs ih =>
    have hb : b ≠ 0 := hnz b (by simp)
    have ih2 := ih (fun x hx => hnz x (by simp [hx]))
    simp only [List.cons_append, List.takeWhile_cons]
    rw [if_pos (by simp [hb]), ih2]

theorem strLen_padTo (c : List Nat) (hnz : ∀ b ∈ c, b ≠ 0) :
    strLen (padTo 32 c) = c.length := by
  unfold strLen padTo
  rw [takeWhile_pad c _ hnz]

/-- C8 (amended): over a 32-byte zero-padded slot holding NUL-free
content, the export flag defaults to true when the slot is unfinalized
(still a template placeholder) or empty; otherwise the Linux parser
yields true exactly when the first content byte is `'1'`, while the
macOS and Windows parser yields false exactly when the first content
byte is `'0'` — neither matches the claim's "false iff the content is
the string 0". -/
theorem C8_export_parse_amended (c : List Nat) (hnz : ∀ b ∈ c, b ≠ 0) :
    ((isTemplatePlaceholder (padTo 32 c) = true ∨ c = []) →
      linuxParseExport (padTo 32 c) = true ∧ macosParseExport (padTo 32 c) = true) ∧
    (isTemplatePlaceholder (padTo 32 c) = false → c ≠ [] →
      (linuxParseExport (padTo 32 c) = true ↔ c.headD 0 = 49) ∧
      (macosParseExport (padTo 32 c) = false ↔ c.headD 0 = 48)) := by
  have hsl : strLen (padTo 32 c) = c.length := strLen_padTo c hnz
  constructor
  · intro hdef
    have hcond : ¬ (¬ (isTemplatePlaceholder (padTo 32 c) = true) ∧ 0 < strLen (padTo 32 c)) := by
      rcases hdef with ht | hc
      · exact fun h => h.1 ht
      · subst hc
        rw [hsl]
        exact fun h => Nat.lt_irrefl 0 h.2
    constructor
    · unfold linuxParseExport
      rw [if_neg hcond]
    · unfold macosParseExport
      rw [if_neg hcond]
  · intro hfin hne
    have hpos : 0 < c.length := List.length_pos.mpr hne
    have hcond : ¬ (isTemplatePlaceholder (padTo 32 c) = true) ∧ 0 < strLen (padTo 32 c) := by
      refine ⟨by simp [hfin], ?_⟩
      rw [hsl]
      exact hpos
    have hhd : (padTo 32 c).headD 0 = c.headD 0 := by
      cases c with
      | nil => exact absurd rfl hne
      | cons b cs => rfl
    constructor
    · unfold linuxParseExport
      rw [if_pos hcond, hhd]
      simp
    · unfold macosParseExport
      rw [if_pos hcond, hhd]
      simp

/-- C8 counterexample: the finalized content `"2"` makes the Linux
parser yield false although the content is not `"0"`, and the finalized
content `"0x"` makes the macOS and Windows parser yield false although
the content is not `"0"`; both refute the claim's "false if and only if
the content is 0". -/
theorem C8_export_parse_counterexample :
    linuxParseExport (padTo 32 [50]) = false ∧
    macosParseExport (padTo 32 [48, 120]) = false ∧
    ([50] : List Nat) ≠ strBytes "0" ∧ ([48, 120] : List Nat) ≠ strBytes "0" := by
  exact ⟨by decide, by decide, by decide, by decide⟩

/-- C8 witness: the amended characterisation applied to the finalized
content `"1"`. -/
theorem C8_export_parse_witness :
    (linuxParseExport (padTo 32 [49]) = true ↔ ([49] : List Nat).headD 0 = 49) ∧
    (macosParseExport (padTo 32 [49]) = false ↔ ([49] : List Nat).headD 0 = 48) :=
  (C8_export_parse_amended [49] (by decide)).2 (by decide) (by decide)

/-! ## Claim C9 -/

/-- C9: in directory mode `rlocation` consults no filesystem oracle (the
embedded function takes none) and, for every non-absolute path and base
directory of 1 to 256 bytes, returns `some` of the base directory, a
`'/'` separator inserted only when the base does not already end with
`'/'`, and the path, the whole truncated to 256 bytes. -/
theorem C9_directory_rlocation (dir path : List Nat) (mp dp : Option (List Nat))
    (hd0 : 0 < dir.length) (hd : dir.length ≤ 256)
    (hp : path = [] ∨ path.headD 0 ≠ 47) :
    Runfiles.rlocation ⟨RunfilesMode.directoryBased dir, mp, dp⟩ path =
      some ((dir ++ (if dir.getLastD 0 = 47 then [] else [47]) ++ path).take 256) := by
  unfold Runfiles.rlocation
  have hna : ¬ (0 < path.length ∧ path.headD 0 = 47) := by
    rcases hp with h | h
    · subst h
      simp
    · exact fun hc => h hc.2
  rw [if_neg hna]
  dsimp only
  have hmin : min dir.length 256 = dir.length := Nat.min_eq_left hd
  rw [hmin, List.take_length]
  by_cases hfull : dir.length < 256
  · by_cases hlast : dir.getLastD 0 = 47
    · rw [if_neg (fun hc => hc.2.2 hlast), if_pos hlast, List.append_nil,
        List.take_append_eq_append_take, List.take_of_length_le hd]
    · rw [if_pos ⟨hfull, hd0, hlast⟩, if_neg hlast,
        List.take_append_eq_append_take, List.take_append_eq_append_take,
        List.take_of_length_le hd]
      have h1 : ([47] : List Nat).take (256 - dir.length) = [47] := by
        apply List.take_of_length_le
        simp only [List.length_cons, List.length_nil]
        omega
      have h2 : 256 - (dir ++ [47]).length = 256 - (dir.length + 1) := by
        simp
      rw [h1, h2]
  · have h256 : dir.length = 256 := by omega
    rw [if_neg (fun hc => hfull hc.1)]
    split_ifs with hlast
    · rw [List.append_nil, List.take_append_eq_append_take,
        List.take_of_length_le hd, h256]
    · rw [List.take_append_eq_append_take, List.take_append_eq_append_take,
        List.take_of_length_le hd]
      simp [h256]

/-- C9 witness: the characterisation applied to the base directory
`/base` (no trailing slash) and the path `x/y`. -/
theorem C9_directory_rlocation_witness :
    Runfiles.rlocation ⟨RunfilesMode.directoryBased (strBytes "/base"), none, none⟩
      (strBytes "x/y") =
      some ((strBytes "/base" ++
        (if (strBytes "/base").getLastD 0 = 47 then [] else [47]) ++
        strBytes "x/y").take 256) :=
  C9_directory_rlocation (strBytes "/base") (strBytes "x/y") none none
    (by decide) (by decide) (Or.inr (by decide))
